import Mathlib

/-!
Verification development for the `cloudflare-proxy-manager` repository
(`src/cloudflare_proxy_manager.py`).

The Python source is shallowly embedded below:

* Python dicts keyed by strings become association lists (`alGet` / `alSet` /
  `alModify` mirror `d[k]`, `d[k] = v`, in-place mutation of a stored value;
  `setdefault` is expressed with `alGet` + `alSet`).
* The persisted proxy-state document (`self.state["accounts"]`) becomes
  `ProxyState`; a per-record entry becomes `Snapshot`.  The keys
  `comment_modified` / `comment_after` are absent from a freshly seeded
  snapshot in Python and only read through `.get` (absent ≡ falsy / `None`),
  so they are modelled as `false` / `none` in the seed.
* The remote Cloudflare API surface used by the script (zones per account,
  DNS records per zone, get/put of a single record) becomes `Remote`,
  a per-account list of zones; `update_dns_record_proxy_status`'s `put` is a
  keyed in-place record replacement.  A `put` that would raise is modelled by
  the oracle `putOk` returning `false` (the Python wrapper catches the
  exception and returns `False`).
* Regular-expression filters (`re.search`) are abstracted as opaque boolean
  predicates on the record name; the substring "tag" filter is modelled
  exactly (lower-casing plus substring containment).
* Wall-clock timestamps (`datetime.utcnow()`) are nondeterministic and are
  modelled out: the comment template is an opaque function of the non-clock
  placeholders, and the `timestamp` field of a change row is omitted.
-/

/-- `charsLeadEq pre l` is true iff `pre` is an initial segment of `l`
(character-by-character comparison). -/
def charsLeadEq : List Char → List Char → Bool
  | [], _ => true
  | _ :: _, [] => false
  | a :: as, b :: bs => a == b && charsLeadEq as bs

/-- `charsHasSub hay nd` is true iff `nd` occurs contiguously inside `hay`;
this is Python's `nd in hay` on strings, at the character-list level. -/
def charsHasSub : List Char → List Char → Bool
  | [], nd => nd.isEmpty
  | c :: t, nd => charsLeadEq nd (c :: t) || charsHasSub t nd

/-- Python's substring test `needle in hay`. -/
def strContainsSub (hay needle : String) : Bool :=
  charsHasSub hay.toList needle.toList

/-- Association-list lookup, mirroring `d.get(k)` on a Python dict with
string keys (first binding wins; dicts never hold duplicate keys). -/
def alGet {β : Type} : List (String × β) → String → Option β
  | [], _ => none
  | (k', v) :: t, k => if k' = k then some v else alGet t k

/-- Association-list store, mirroring `d[k] = v`: replaces the first binding
of `k`, or appends a new binding (Python dicts append new keys in insertion
order). -/
def alSet {β : Type} : List (String × β) → String → β → List (String × β)
  | [], k, v => [(k, v)]
  | (k', v') :: t, k, v => if k' = k then (k, v) :: t else (k', v') :: alSet t k v

/-- In-place mutation of the value stored at `k` (no-op when `k` is absent),
mirroring Python's mutation of a dict value obtained by reference. -/
def alModify {β : Type} : List (String × β) → String → (β → β) → List (String × β)
  | [], _, _ => []
  | (k', v') :: t, k, f => if k' = k then (k', f v') :: t else (k', v') :: alModify t k f

/-- A per-record snapshot as persisted in `proxy_state.json`
(seeded at `src/cloudflare_proxy_manager.py:413-423`). -/
structure Snapshot where
  name : String
  rtype : String
  content : String
  proxied : Bool
  comment : Option String
  modified : Bool
  comment_modified : Bool
  comment_after : Option String
deriving DecidableEq, Repr

/-- One zone's worth of persisted state: `{"zone_name": ..., "records": {...}}`. -/
structure ZoneState where
  zone_name : String
  records : List (String × Snapshot)
deriving DecidableEq, Repr

/-- `self.state["accounts"]`: account name → zone id → zone state. -/
abbrev ProxyState := List (String × List (String × ZoneState))

/-- A DNS record as returned by the remote listing API. `proxied` is optional
in the raw payload (`record.get("proxied")`), hence `Option Bool`. -/
structure RemoteRecord where
  id : String
  name : String
  rtype : String
  content : String
  proxied : Option Bool
  comment : Option String
deriving DecidableEq, Repr

/-- A zone on the remote side, together with its DNS records. -/
structure RemoteZone where
  id : String
  name : String
  records : List RemoteRecord
deriving DecidableEq, Repr

/-- The remote world: for each account name, the zones its token can see. -/
abbrev Remote := List (String × List RemoteZone)

/-- A configured account: name plus optional configured account id. -/
structure AccountCfg where
  name : String
  account_id : Option String
deriving DecidableEq, Repr

/-- The non-clock placeholders available to `_render_comment`
(`src/cloudflare_proxy_manager.py:231-241`). -/
structure RenderArgs where
  account : String
  account_id : String
  zone : String
  zone_id : String
  record_name : String
  record_id : String
deriving DecidableEq, Repr

/-- One row of `results["changes"]`; the wall-clock `timestamp` field is
modelled out. -/
structure ChangeRecord where
  action : String
  account : String
  account_id : String
  zone : String
  zone_id : String
  record_id : String
  record_name : String
  record_type : String
  content : String
  proxied_before : Bool
  proxied_after : Bool
  comment_before : Option String
  comment_after : Option String
deriving DecidableEq, Repr

/-- Per-account counters of the disable flow
(`src/cloudflare_proxy_manager.py:366`). -/
structure AcctRun where
  zones_processed : Nat
  records_processed : Nat
  records_modified : Nat
  errors : Nat
deriving DecidableEq, Repr

/-- `_matches_name_filters` (`src/cloudflare_proxy_manager.py:204-211`); the
two `re.search` patterns are abstracted as opaque predicates on the name,
`none` standing for an absent (falsy) pattern. -/
def matchesNameFilters (nm : String) (incl excl : Option (String → Bool)) : Bool :=
  (match incl with
   | some p => p nm
   | none => true) &&
  (match excl with
   | some q => !(q nm)
   | none => true)

/-- The `tag_fields = tag_fields or ["name", "content"]` defaulting
(`src/cloudflare_proxy_manager.py:217`): `None` and `[]` are both falsy. -/
def effectiveTagFields : Option (List String) → List String
  | none => ["name", "content"]
  | some [] => ["name", "content"]
  | some l => l

/-- `fields.get(f)` where the fields dict itself stores optional values
(flattens the two layers of absence). -/
def fieldsGet (fields : List (String × Option String)) (k : String) : Option String :=
  match alGet fields k with
  | some v => v
  | none => none

/-- `_matches_tag_filters` (`src/cloudflare_proxy_manager.py:213-229`). -/
def matchesTagFilters (fields : List (String × Option String))
    (tags : Option (List String)) (tagFields : Option (List String)) : Bool :=
  match tags with
  | none => true
  | some [] => true
  | some ts =>
    let tf := effectiveTagFields tagFields
    let haystacks := tf.filterMap (fun f => fieldsGet fields f)
    if haystacks.isEmpty then false
    else
      let combined := (String.intercalate "\n" haystacks).toLower
      ts.any (fun t => strContainsSub combined t.toLower)

/-- The fields dict built for the tag filter in the disable flow
(`src/cloudflare_proxy_manager.py:404-408`). -/
def recFields (r : RemoteRecord) : List (String × Option String) :=
  [("name", some r.name), ("content", some r.content), ("comment", r.comment)]

/-- The fields dict built for the tag filter in the restore flow
(`src/cloudflare_proxy_manager.py:575-579`), drawn from the snapshot. -/
def snapFields (s : Snapshot) : List (String × Option String) :=
  [("name", some s.name), ("content", some s.content), ("comment", s.comment)]

/-- Look a snapshot up at key (account, zone id, record id). -/
def lookupSnap (st : ProxyState) (a z rid : String) : Option Snapshot :=
  (alGet st a).bind fun zs => (alGet zs z).bind fun zo => alGet zo.records rid

/-- Zone initialisation (`src/cloudflare_proxy_manager.py:388-390`):
`self.state.setdefault("accounts", {}).setdefault(account_name, {})`, then
insert `{"zone_name": zone_name, "records": {}}` when the zone id is new. -/
def ensureZone (st : ProxyState) (a z zn : String) : ProxyState :=
  alSet st a
    (match alGet ((alGet st a).getD []) z with
     | some _ => (alGet st a).getD []
     | none => alSet ((alGet st a).getD []) z ⟨zn, []⟩)

/-- Insert a snapshot at a key (used by `setdefault` when the key is new). -/
def insertSnap (st : ProxyState) (a z rid : String) (v : Snapshot) : ProxyState :=
  alModify st a fun zones =>
    alModify zones z fun zo => { zo with records := alSet zo.records rid v }

/-- Mutate the snapshot stored at a key in place. -/
def modifySnap (st : ProxyState) (a z rid : String) (f : Snapshot → Snapshot) : ProxyState :=
  alModify st a fun zones =>
    alModify zones z fun zo => { zo with records := alModify zo.records rid f }

/-- The snapshot seed of `src/cloudflare_proxy_manager.py:415-422`.  The
`comment_modified` / `comment_after` keys are absent in Python and only ever
read through `.get`, so they seed as `false` / `none` here. -/
def snapSeed (r : RemoteRecord) : Snapshot :=
  { name := r.name
    rtype := r.rtype
    content := r.content
    proxied := r.proxied.getD false
    comment := r.comment
    modified := false
    comment_modified := false
    comment_after := none }

/-- `records.setdefault(record_id, seed)` (`src/cloudflare_proxy_manager.py:413`):
return the stored snapshot when present, otherwise store and return the seed.
(The flows only call this after `ensureZone`, so the account and zone exist.) -/
def getOrCreateSnap (st : ProxyState) (a z rid : String) (seed : Snapshot) :
    Snapshot × ProxyState :=
  match lookupSnap st a z rid with
  | some s => (s, st)
  | none => (seed, insertSnap st a z rid seed)

/-- The state store's get-or-create operation as executed by the disable flow
(`src/cloudflare_proxy_manager.py:388-423`): zone initialisation followed by
`setdefault` of the observed seed. -/
def getOrCreateSnapshot (st : ProxyState) (a z zn : String) (r : RemoteRecord) :
    Snapshot × ProxyState :=
  getOrCreateSnap (ensureZone st a z zn) a z r.id (snapSeed r)

/-- The zones visible to an account's token (`get_zones`, modelling a healthy
API; an enumeration failure yields `[]`, as does the `except` branch). -/
def zonesOf (w : Remote) (a : String) : List RemoteZone :=
  (alGet w a).getD []

/-- First zone with the given id inside an account's zone list. -/
def worldZone (w : Remote) (a z : String) : Option RemoteZone :=
  (zonesOf w a).find? fun zo => zo.id == z

/-- `get_dns_records` (`src/cloudflare_proxy_manager.py:311-318`): the records
of the zone, `[]` when the zone cannot be found. -/
def getDnsRecords (w : Remote) (a z : String) : List RemoteRecord :=
  match worldZone w a z with
  | some zo => zo.records
  | none => []

/-- `cf.zones.dns_records.get(zone_id, record_id)`. -/
def worldGetRecord (w : Remote) (a z rid : String) : Option RemoteRecord :=
  (worldZone w a z).bind fun zo => zo.records.find? fun r => r.id == rid

/-- `cf.zones.dns_records.put(zone_id, record_id, data=record)`: replace the
record with the given id inside the zone. -/
def worldUpdateRecord (w : Remote) (a z rid : String) (f : RemoteRecord → RemoteRecord) :
    Remote :=
  alModify w a fun zones =>
    zones.map fun zo =>
      if zo.id == z then
        { zo with records := zo.records.map fun r => if r.id == rid then f r else r }
      else zo

/-- The field edits of `update_dns_record_proxy_status`
(`src/cloudflare_proxy_manager.py:333-341`): returns the edited record and the
`changed` flag.  `record.get("proxied") != proxied` compares an optional raw
value to a boolean, so an absent flag always differs. -/
def applyUpdate (r : RemoteRecord) (p : Bool) (c : Option String) :
    RemoteRecord × Bool :=
  let s1 : RemoteRecord × Bool :=
    if r.proxied ≠ some p then ({ r with proxied := some p }, true) else (r, false)
  match c with
  | none => s1
  | some cv =>
    if s1.1.comment ≠ some cv then ({ s1.1 with comment := some cv }, true) else s1

/-- `update_dns_record_proxy_status` (`src/cloudflare_proxy_manager.py:320-347`).
Returns (new world, the Python return value, number of `put` calls issued).
A failed `get` (record not found) and a `put` whose call raises (`putOk` says
`false`) are both caught by the `except` branch and yield `False` with the
world unchanged. -/
def updateDnsRecordProxyStatus (w : Remote) (putOk : String → String → Bool)
    (a z rid : String) (p : Bool) (c : Option String) : Remote × Bool × Nat :=
  match worldGetRecord w a z rid with
  | none => (w, false, 0)
  | some r =>
    let pr := applyUpdate r p c
    if pr.2 then
      if putOk z rid then (worldUpdateRecord w a z rid fun _ => pr.1, true, 1)
      else (w, false, 1)
    else (w, false, 0)

/-- User-facing inputs of `scan_and_disable_proxies`
(`src/cloudflare_proxy_manager.py:349-359`). -/
structure DisCfg where
  dryRun : Bool
  selAccounts : Option (List String)
  selZones : Option (List String)
  incl : Option (String → Bool)
  excl : Option (String → Bool)
  tags : Option (List String)
  tagFields : Option (List String)
  commentTmpl : Option (RenderArgs → String)

/-- `selected_accounts and account_name not in selected_accounts`
(an empty list is falsy and disables the filter). -/
def skipAccount (sel : Option (List String)) (a : String) : Bool :=
  match sel with
  | some (s :: ss) => !((s :: ss).contains a)
  | _ => false

/-- Zone allow-list (`src/cloudflare_proxy_manager.py:377-378`): keep zones
whose name or id occurs in the (truthy) selection. -/
def selectZones (sel : Option (List String)) (zs : List RemoteZone) : List RemoteZone :=
  match sel with
  | some (s :: ss) => zs.filter fun z => (s :: ss).contains z.name || (s :: ss).contains z.id
  | _ => zs

/-- Mutable context threaded through one disable run for a single account. -/
structure DisFlowSt where
  st : ProxyState
  w : Remote
  changes : List ChangeRecord
  total : Nat
  puts : Nat
  cnt : AcctRun
deriving Repr

/-- The change row appended by the disable flow
(`src/cloudflare_proxy_manager.py:452-467` and `484-499`); dry-run and live
rows differ only in the `action` string. -/
def mkChangeRec (action : String) (acct : AccountCfg) (zname zid : String)
    (r : RemoteRecord) (rs : Snapshot) (dc : Option String) : ChangeRecord :=
  { action := action
    account := acct.name
    account_id := acct.account_id.getD "N/A"
    zone := zname
    zone_id := zid
    record_id := r.id
    record_name := r.name
    record_type := r.rtype
    content := r.content
    proxied_before := true
    proxied_after := false
    comment_before := rs.comment
    comment_after := dc }

/-- The rendered disable comment (`desired_comment`,
`src/cloudflare_proxy_manager.py:427-438`): `none` when no template is
configured, otherwise the template applied to the record's placeholders. -/
def dcOf (cfg : DisCfg) (acct : AccountCfg) (zid zname : String) (r : RemoteRecord) :
    Option String :=
  match cfg.commentTmpl with
  | none => none
  | some tmpl =>
    some (tmpl ⟨acct.name, acct.account_id.getD "N/A", zname, zid, r.name, r.id⟩)

/-- The snapshot bookkeeping for the rendered comment
(`src/cloudflare_proxy_manager.py:439-442`): when a template is configured
and the snapshot's recorded comment differs from the rendered one, mark
`comment_modified` and store `comment_after`. -/
def st2Of (cfg : DisCfg) (acct : AccountCfg) (zid zname : String)
    (st1 : ProxyState) (rs : Snapshot) (r : RemoteRecord) : ProxyState :=
  match dcOf cfg acct zid zname r with
  | none => st1
  | some d =>
    if rs.comment = some d then st1
    else modifySnap st1 acct.name zid r.id fun s =>
      { s with comment_modified := true, comment_after := some d }

/-- The action taken on a record that passed the double guard
(`src/cloudflare_proxy_manager.py:427-511`): `rs` is its snapshot, `st1` the
state after the `setdefault`.  Dry-run counts and logs a `would_disable_proxy`
row; live mode calls `update_dns_record_proxy_status` with `proxied=False` and
the rendered comment, and on success flips `modified`, counts, and appends a
`disable_proxy` row. -/
def disableAct (cfg : DisCfg) (putOk : String → String → Bool) (acct : AccountCfg)
    (zid zname : String) (fs0 : DisFlowSt) (r : RemoteRecord) (rs : Snapshot)
    (st1 : ProxyState) : DisFlowSt :=
  if cfg.dryRun then
    { fs0 with
      st := st2Of cfg acct zid zname st1 rs r
      changes := fs0.changes ++
        [mkChangeRec "would_disable_proxy" acct zname zid r rs (dcOf cfg acct zid zname r)]
      total := fs0.total + 1
      cnt := { fs0.cnt with records_modified := fs0.cnt.records_modified + 1 } }
  else
    if (updateDnsRecordProxyStatus fs0.w putOk acct.name zid r.id false
        (dcOf cfg acct zid zname r)).2.1 then
      { fs0 with
        st := modifySnap (st2Of cfg acct zid zname st1 rs r) acct.name zid r.id
          fun s => { s with modified := true }
        w := (updateDnsRecordProxyStatus fs0.w putOk acct.name zid r.id false
          (dcOf cfg acct zid zname r)).1
        changes := fs0.changes ++
          [mkChangeRec "disable_proxy" acct zname zid r rs (dcOf cfg acct zid zname r)]
        total := fs0.total + 1
        puts := fs0.puts + (updateDnsRecordProxyStatus fs0.w putOk acct.name zid r.id false
          (dcOf cfg acct zid zname r)).2.2
        cnt := { fs0.cnt with records_modified := fs0.cnt.records_modified + 1 } }
    else
      { fs0 with
        st := st2Of cfg acct zid zname st1 rs r
        w := (updateDnsRecordProxyStatus fs0.w putOk acct.name zid r.id false
          (dcOf cfg acct zid zname r)).1
        puts := fs0.puts + (updateDnsRecordProxyStatus fs0.w putOk acct.name zid r.id false
          (dcOf cfg acct zid zname r)).2.2 }

/-- The body run for a record that survived type and filter checks
(`src/cloudflare_proxy_manager.py:412-511`), after the `records_processed`
bump: get-or-create the snapshot via `setdefault`, then act only when the
remote proxy flag is truthy *and* the snapshot is not already `modified`. -/
def disableProcess (cfg : DisCfg) (putOk : String → String → Bool)
    (acct : AccountCfg) (zid zname : String) (fs0 : DisFlowSt) (r : RemoteRecord) :
    DisFlowSt :=
  if r.proxied.getD false && !(getOrCreateSnap fs0.st acct.name zid r.id (snapSeed r)).1.modified then
    disableAct cfg putOk acct zid zname fs0 r
      (getOrCreateSnap fs0.st acct.name zid r.id (snapSeed r)).1
      (getOrCreateSnap fs0.st acct.name zid r.id (snapSeed r)).2
  else
    { fs0 with st := (getOrCreateSnap fs0.st acct.name zid r.id (snapSeed r)).2 }

/-- Processing of one DNS record by the disable flow
(`src/cloudflare_proxy_manager.py:395-511`). -/
def disableRecordStep (cfg : DisCfg) (putOk : String → String → Bool)
    (acct : AccountCfg) (zid zname : String) (fs : DisFlowSt) (r : RemoteRecord) :
    DisFlowSt :=
  if !(["A", "AAAA", "CNAME"].contains r.rtype) then fs
  else if !(matchesNameFilters r.name cfg.incl cfg.excl) then fs
  else if !(matchesTagFilters (recFields r) cfg.tags cfg.tagFields) then fs
  else
    disableProcess cfg putOk acct zid zname
      { fs with cnt := { fs.cnt with records_processed := fs.cnt.records_processed + 1 } } r

/-- Processing of one zone by the disable flow
(`src/cloudflare_proxy_manager.py:383-513`): bump `zones_processed`,
initialise the zone in the state, fetch the records, process each. -/
def disableZone (cfg : DisCfg) (putOk : String → String → Bool) (acct : AccountCfg)
    (zid zname : String) (fs : DisFlowSt) : DisFlowSt :=
  (getDnsRecords fs.w acct.name zid).foldl (disableRecordStep cfg putOk acct zid zname)
    { fs with
      st := ensureZone fs.st acct.name zid zname
      cnt := { fs.cnt with zones_processed := fs.cnt.zones_processed + 1 } }

/-- Running context of a whole disable run. -/
structure DisRunSt where
  st : ProxyState
  w : Remote
  changes : List ChangeRecord
  total : Nat
  puts : Nat
  accounts : List (String × AcctRun)
deriving Repr

/-- Append an account's final counters to the run's per-account results
(`results["accounts"][account_name] = account_results`). -/
def closeAccount (rs : DisRunSt) (acct : AccountCfg) (fs : DisFlowSt) : DisRunSt :=
  ⟨fs.st, fs.w, fs.changes, fs.total, fs.puts, rs.accounts ++ [(acct.name, fs.cnt)]⟩

/-- Processing of one configured account by the disable flow
(`src/cloudflare_proxy_manager.py:363-517`). -/
def disableAccount (cfg : DisCfg) (putOk : String → String → Bool)
    (rs : DisRunSt) (acct : AccountCfg) : DisRunSt :=
  if skipAccount cfg.selAccounts acct.name then rs
  else
    closeAccount rs acct
      ((selectZones cfg.selZones (zonesOf rs.w acct.name)).foldl
        (fun fs z => disableZone cfg putOk acct z.id z.name fs)
        ⟨rs.st, rs.w, rs.changes, rs.total, rs.puts, ⟨0, 0, 0, 0⟩⟩)

/-- The value returned by `scan_and_disable_proxies`, together with the final
proxy state, the final remote world and the number of `put` calls issued. -/
structure DisRun where
  accounts : List (String × AcctRun)
  total_changes : Nat
  dry_run : Bool
  changes : List ChangeRecord
  st : ProxyState
  w : Remote
  puts : Nat
deriving Repr

/-- `scan_and_disable_proxies` (`src/cloudflare_proxy_manager.py:349-519`). -/
def scanAndDisableProxies (cfg : DisCfg) (putOk : String → String → Bool)
    (accountsCfg : List AccountCfg) (w : Remote) (st : ProxyState) : DisRun :=
  let r := accountsCfg.foldl (disableAccount cfg putOk) ⟨st, w, [], 0, 0, []⟩
  ⟨r.accounts, r.total, cfg.dryRun, r.changes, r.st, r.w, r.puts⟩

/-- User-facing inputs of `restore_proxies`
(`src/cloudflare_proxy_manager.py:521-530`).  Note: the flag
`restore_original_comment` used by the body is *not* among them. -/
structure ResCfg where
  dryRun : Bool
  selAccounts : Option (List String)
  selZones : Option (List String)
  incl : Option (String → Bool)
  excl : Option (String → Bool)
  tags : Option (List String)
  tagFields : Option (List String)

/-- Per-account counters of the restore flow
(`src/cloudflare_proxy_manager.py:545`). -/
structure RestoreAcct where
  zones_processed : Nat
  records_restored : Nat
  errors : Nat
deriving DecidableEq, Repr

/-- The record loop of the restore flow
(`src/cloudflare_proxy_manager.py:570-667`).  The first record that passes the
filters and has `modified` and `proxied` set reaches line 583, which reads the
name `restore_original_comment`; that name is neither a parameter of
`restore_proxies` nor a global, so Python raises `NameError` there, before the
`dry_run` test and before the per-record `try`.  This uncaught exception is
modelled as `Except.error ()`; everything from line 584 to 667 (the remote
mutation, the `modified := False` reset, counters, change rows and the
per-record `except`) is unreachable and therefore not modelled. -/
def restoreRecs (cfg : ResCfg) : List (String × Snapshot) → Except Unit Unit
  | [] => .ok ()
  | (_, rd) :: rest =>
    if !(matchesNameFilters rd.name cfg.incl cfg.excl) then restoreRecs cfg rest
    else if !(matchesTagFilters (snapFields rd) cfg.tags cfg.tagFields) then
      restoreRecs cfg rest
    else if rd.modified && rd.proxied then .error ()
    else restoreRecs cfg rest

/-- The zone loop of the restore flow
(`src/cloudflare_proxy_manager.py:559-569`): skip the legacy `"zone_name"`
metadata key, apply the zone allow-list against the stored name and id, count
the zone, then walk its records. -/
def restoreZones (cfg : ResCfg) : List (String × ZoneState) → Nat → Except Unit Nat
  | [], zp => .ok zp
  | (zid, zd) :: rest, zp =>
    if zid == "zone_name" then restoreZones cfg rest zp
    else if (match cfg.selZones with
             | some (s :: ss) =>
               !((s :: ss).contains zd.zone_name) && !((s :: ss).contains zid)
             | _ => false) then restoreZones cfg rest zp
    else
      match restoreRecs cfg zd.records with
      | .error e => .error e
      | .ok _ => restoreZones cfg rest (zp + 1)

/-- The account loop of the restore flow
(`src/cloudflare_proxy_manager.py:538-546`): iterate the *persisted* state,
apply the account allow-list, skip accounts absent from the current
configuration (with a warning), then walk the account's zones. -/
def restoreAccounts (cfg : ResCfg) (cfgNames : List String) :
    ProxyState → List (String × RestoreAcct) → Except Unit (List (String × RestoreAcct))
  | [], acc => .ok acc
  | (aname, adata) :: rest, acc =>
    if skipAccount cfg.selAccounts aname then restoreAccounts cfg cfgNames rest acc
    else if !(cfgNames.contains aname) then restoreAccounts cfg cfgNames rest acc
    else
      match restoreZones cfg adata 0 with
      | .error e => .error e
      | .ok zp => restoreAccounts cfg cfgNames rest (acc ++ [(aname, ⟨zp, 0, 0⟩)])

/-- The dictionary returned by a completed restore run.  `records_restored`,
`errors`, `total_restored` and `changes` can never move off their initial
values because the code that would change them sits behind the undefined-name
read of line 583. -/
structure RestoreRes where
  accounts : List (String × RestoreAcct)
  total_restored : Nat
  dry_run : Bool
  changes : List ChangeRecord
deriving Repr

/-- Full outcome of `restore_proxies`: `outcome = .ok none` models the
`{"error": "No state file found..."}` early return, `.ok (some _)` a run that
fell through to `return results`, and `.error ()` the uncaught `NameError`
raised at line 583.  The final state, world and `put` count are carried
alongside (they are unchanged in every case). -/
structure RestoreOut where
  outcome : Except Unit (Option RestoreRes)
  st : ProxyState
  w : Remote
  puts : Nat
deriving Repr

/-- `restore_proxies` (`src/cloudflare_proxy_manager.py:521-675`). -/
def restoreProxies (cfg : ResCfg) (accountsCfg : List AccountCfg)
    (stateFileExists : Bool) (st : ProxyState) (w : Remote) : RestoreOut :=
  if !stateFileExists then ⟨.ok none, st, w, 0⟩
  else
    match restoreAccounts cfg (accountsCfg.map (·.name)) st [] with
    | .error e => ⟨.error e, st, w, 0⟩
    | .ok accs => ⟨.ok (some ⟨accs, 0, cfg.dryRun, []⟩), st, w, 0⟩

/-- An exception raised by a Cloudflare API call: the optional HTTP-like
status (`getattr(e, "code", None)`) and the stringified message. -/
structure Fault where
  code : Option Nat
  msg : String
deriving DecidableEq, Repr

/-- The retryability classification of `_cf_call`
(`src/cloudflare_proxy_manager.py:153-158`). -/
def retryableFault (e : Fault) : Bool :=
  (match e.code with
   | some c => [429, 500, 502, 503, 504].contains c
   | none => false) ||
  (["429", "rate limit", "timeout", "timed out", "connection"].any fun s =>
    strContainsSub e.msg s)

/-- `min(sleep_for, 30.0)` (`src/cloudflare_proxy_manager.py:168`), written
with an explicit comparison so it evaluates. -/
def pyMin (a b : Rat) : Rat := if a ≤ b then a else b

/-- Observable trace of one `_cf_call` invocation: the final result, how many
times the wrapped operation was invoked, and the sequence of sleep durations
(seconds, exact rationals — the float arithmetic involved is exact here). -/
structure CallTrace (α : Type) where
  result : Except Fault α
  calls : Nat
  sleeps : List Rat
deriving Repr

/-- The retry loop of `_cf_call` (`src/cloudflare_proxy_manager.py:144-168`).
`op n` is the outcome of the `(n+1)`-th invocation of `fn`.  `attempt` is the
Python counter (number of failures so far); the loop body raises when the
fault is not retryable or `attempt > max_retries`, otherwise sleeps
`min(base * 2**(attempt-1), 30.0)` and retries.  At most `maxRetries`
re-invocations can happen, so `fuel = maxRetries + 1` (set by `cfCall`) makes
the fuel-exhaustion branch unreachable. -/
def cfCallGo {α : Type} (op : Nat → Except Fault α) (maxRetries : Nat) (base : Rat) :
    Nat → Nat → Nat → List Rat → CallTrace α
  | 0, _, calls, sleeps => ⟨.error ⟨none, "fuel exhausted"⟩, calls, sleeps⟩
  | fuel + 1, attempt, calls, sleeps =>
    match op calls with
    | .ok v => ⟨.ok v, calls + 1, sleeps⟩
    | .error e =>
      let att := attempt + 1
      if !(retryableFault e) || att > maxRetries then ⟨.error e, calls + 1, sleeps⟩
      else
        let slp := pyMin (base * ((2 ^ (att - 1) : Nat) : Rat)) 30
        cfCallGo op maxRetries base fuel att (calls + 1) (sleeps ++ [slp])

/-- `_cf_call(fn, max_retries, base_sleep_seconds)`
(`src/cloudflare_proxy_manager.py:144-168`). -/
def cfCall {α : Type} (op : Nat → Except Fault α) (maxRetries : Nat) (base : Rat) :
    CallTrace α :=
  cfCallGo op maxRetries base (maxRetries + 1) 0 0 []

/-- One page response as dispatched on by `_paginate_get`
(`src/cloudflare_proxy_manager.py:181-200`): an envelope dict carrying a
`result` key (whose value may be null) and optionally
`result_info.total_pages`; a bare list; or anything else. -/
inductive PageResp (α : Type) where
  | envelope (result : Option (List α)) (total_pages : Option Nat)
  | plain (items : List α)
  | other
deriving Repr

/-- The loop of `_paginate_get` (`src/cloudflare_proxy_manager.py:175-200`),
driven by explicit fuel (the Python loop is unbounded): `getter p` is the
response for page `p`, pages count from 1, and the result is the aggregated
items together with the number of fetches, or `none` when the fuel runs out
before the loop breaks. -/
def paginateAux {α : Type} (getter : Nat → PageResp α) (perPage : Nat) :
    Nat → List α → Nat → Nat → Option (List α × Nat)
  | _, _, _, 0 => none
  | page, acc, calls, fuel + 1 =>
    match getter page with
    | .envelope result tp =>
      let items := result.getD []
      let acc' := acc ++ items
      match tp with
      | some t =>
        if page ≥ t then some (acc', calls + 1)
        else if items.isEmpty then some (acc', calls + 1)
        else paginateAux getter perPage (page + 1) acc' (calls + 1) fuel
      | none =>
        if items.isEmpty then some (acc', calls + 1)
        else paginateAux getter perPage (page + 1) acc' (calls + 1) fuel
    | .plain items =>
      let acc' := acc ++ items
      if items.length < perPage then some (acc', calls + 1)
      else paginateAux getter perPage (page + 1) acc' (calls + 1) fuel
    | .other => some (acc, calls + 1)

/-- `_paginate_get` (`src/cloudflare_proxy_manager.py:170-202`) with the given
fuel bound on the number of iterations (`per_page` defaults to 1000). -/
def paginateGet {α : Type} (getter : Nat → PageResp α) (perPage fuel : Nat) :
    Option (List α × Nat) :=
  paginateAux getter perPage 1 [] 0 fuel

/-- A page that is empty and carries no `total_pages` hint: an envelope whose
`result` is null or `[]` without `result_info.total_pages`, or a bare empty
list. -/
def emptyNoTotalPages {α : Type} : PageResp α → Bool
  | .envelope result tp => (result.getD []).isEmpty && tp.isNone
  | .plain items => items.isEmpty
  | .other => false

/-- The persisted state document
(`{"version": 1, "accounts": {}, "last_updated": ...}`). -/
structure StateDoc where
  version : Nat
  accounts : ProxyState
  last_updated : String
deriving DecidableEq, Repr

/-- The on-disk situation `_load_state` can encounter: no file, a file whose
JSON parses to a state document, or a file that raises `JSONDecodeError`. -/
inductive StateFile where
  | absent
  | present (parsed : Option StateDoc)

/-- The uncaught Python exception a call can die with. -/
inductive PyErr where
  | attributeError
deriving DecidableEq, Repr

/-- `_load_state` (`src/cloudflare_proxy_manager.py:90-98`).  `loggerSet`
says whether `self.logger` exists, i.e. whether `setup_logging` (line 65)
has already run.  On a parse failure the `except json.JSONDecodeError`
handler itself evaluates `self.logger.warning(...)` (line 97): when the
logger attribute is not yet set this raises `AttributeError`, which the
handler does not catch, so the call dies; otherwise the warning is logged
(the boolean) and the empty structure stamped with the current time is
returned. -/
def loadState (loggerSet : Bool) (now : String) : StateFile → Except PyErr (StateDoc × Bool)
  | .absent => .ok (⟨1, [], now⟩, false)
  | .present none =>
    if loggerSet then .ok (⟨1, [], now⟩, true) else .error .attributeError
  | .present (some d) => .ok (d, false)

/-- The state a freshly constructed `CloudflareProxyManager` holds.
`__init__` runs `self.state = self._load_state()`
(`src/cloudflare_proxy_manager.py:41`) *before* `self.setup_logging()`
(line 42), so the load executes with no `self.logger` attribute in place. -/
def managerInitState (now : String) (f : StateFile) : Except PyErr StateDoc :=
  (loadState false now f).map Prod.fst

/-! ### Concrete fixtures used by witnesses and counterexamples -/

/-- A proxied A record, as listed by the remote API. -/
def recApi : RemoteRecord := ⟨"r1", "api.example.com", "A", "1.2.3.4", some true, none⟩

/-- An unproxied CNAME record with a comment. -/
def recWww : RemoteRecord := ⟨"r2", "www.example.com", "CNAME", "example.com", some false, some "hi"⟩

/-- An MX record (out of scope for mutation). -/
def recMx : RemoteRecord := ⟨"r3", "mx.example.com", "MX", "mail.example.com", some true, none⟩

/-- A one-account remote world with one zone and three records. -/
def wA : Remote := [("acme", [⟨"z1", "example.com", [recApi, recWww, recMx]⟩])]

/-- The corresponding configured account. -/
def acctA : AccountCfg := ⟨"acme", none⟩

/-- A live (non-dry-run) disable invocation with no filters and no comment
template. -/
def cfgLive : DisCfg := ⟨false, none, none, none, none, none, none, none⟩

/-- The same invocation in dry-run mode. -/
def cfgDry : DisCfg := { cfgLive with dryRun := true }

/-- A live restore invocation with no filters. -/
def rcfgLive : ResCfg := ⟨false, none, none, none, none, none, none⟩

/-- A `put` oracle under which every remote mutation succeeds. -/
def okAll : String → String → Bool := fun _ _ => true

/-- An operation that raises a retryable fault (HTTP 500) on every attempt. -/
def alwaysRetryOp : Nat → Except Fault Unit := fun _ => .error ⟨some 500, "server error"⟩

/-- The three-page bare-list fetcher of the pagination property: pages of
sizes 1000, 1000 and 37. -/
def pages3 : Nat → PageResp Unit := fun p =>
  .plain (List.replicate (if p = 1 then 1000 else if p = 2 then 1000 else 37) ())

/-! ### C5 — corrupt state during construction is fatal (code bug) -/

/-- Claim C5 (refuted: a code bug).  The claim says loading an
existing-but-unparsable state file — including during manager
construction — succeeds without raising and yields the empty structure.
But `__init__` calls `self._load_state()` (`src/cloudflare_proxy_manager.py:41`)
*before* `self.setup_logging()` (line 42), and the `JSONDecodeError` handler
dereferences `self.logger` (line 97), an attribute only `setup_logging`
assigns (line 65); during construction the handler itself raises
`AttributeError`, which `except json.JSONDecodeError` does not catch, so
constructing a manager over a corrupt state file dies instead of holding the
empty document.  Only a post-construction `_load_state` (the `status`
command, line 804), with the logger in place, soft-fails as claimed. -/
theorem c5_corrupt_state_fatal :
    ∀ now : String,
      managerInitState now (.present none) = .error .attributeError ∧
      (∀ d : StateDoc, managerInitState now (.present none) ≠ .ok d) ∧
      loadState true now (.present none) = .ok (⟨1, [], now⟩, true) :=
  fun _ => ⟨rfl, fun _ h => Except.noConfusion h, rfl⟩

/-! ### C9 — tag filter contract -/

/-- Claim C9: with no tags (absent or empty) the tag filter passes
everything; with tags supplied but none of the configured tag fields present
on the record it fails closed; in particular `tags=["x"]`,
`tag_fields=["comment"]` against a record without a comment yields `false`. -/
theorem c9_tag_filter_contract :
    (∀ fields tagFields, matchesTagFilters fields none tagFields = true) ∧
    (∀ fields tagFields, matchesTagFilters fields (some []) tagFields = true) ∧
    (∀ fields ts tagFields, ts ≠ [] →
      (∀ f ∈ effectiveTagFields tagFields, fieldsGet fields f = none) →
      matchesTagFilters fields (some ts) tagFields = false) ∧
    matchesTagFilters (recFields ⟨"r9", "api.example.com", "A", "1.2.3.4", some true, none⟩)
      (some ["x"]) (some ["comment"]) = false := by
  refine ⟨fun _ _ => rfl, fun _ _ => rfl, ?_, by decide⟩
  intro fields ts tagFields hne hnone
  cases ts with
  | nil => exact absurd rfl hne
  | cons t ts' =>
    have h : (effectiveTagFields tagFields).filterMap (fun f => fieldsGet fields f) = [] :=
      List.filterMap_eq_nil_iff.mpr hnone
    simp [matchesTagFilters, h]

/-- Witness for C9 at a concrete record lacking all configured tag fields. -/
theorem c9_tag_filter_contract_witness :
    matchesTagFilters [("name", some "db.example.com")] (some ["prod"]) (some ["comment"]) = false :=
  c9_tag_filter_contract.2.2.1 [("name", some "db.example.com")] ["prod"] (some ["comment"])
    (by decide) (by decide)

/-! ### C10 — no-op mutation guard of `update_dns_record_proxy_status` -/

/-- Claim C10: when the remote record's proxied flag already equals the
requested value and the comment already equals the requested comment (or no
comment is requested), `update_dns_record_proxy_status` issues no `put` and
returns `False`; and it returns `True` only when a `put` was actually
issued. -/
theorem c10_noop_mutation_guard :
    (∀ w putOk a z rid p c r,
      worldGetRecord w a z rid = some r →
      r.proxied = some p →
      (match c with | none => True | some cv => r.comment = some cv) →
      updateDnsRecordProxyStatus w putOk a z rid p c = (w, false, 0)) ∧
    (∀ w putOk a z rid p c,
      (updateDnsRecordProxyStatus w putOk a z rid p c).2.1 = true →
      (updateDnsRecordProxyStatus w putOk a z rid p c).2.2 = 1) := by
  constructor
  · intro w putOk a z rid p c r hget hp hc
    have hch : applyUpdate r p c = (r, false) := by
      cases c with
      | none => simp [applyUpdate, hp]
      | some cv =>
        simp only at hc
        simp [applyUpdate, hp, hc]
    simp [updateDnsRecordProxyStatus, hget, hch]
  · intro w putOk a z rid p c htrue
    unfold updateDnsRecordProxyStatus at htrue ⊢
    cases hget : worldGetRecord w a z rid with
    | none => simp [hget] at htrue
    | some r =>
      simp only [hget] at htrue ⊢
      by_cases hch : (applyUpdate r p c).2
      · by_cases hok : putOk z rid
        · simp [hch, hok]
        · simp [hch, hok] at htrue
      · simp [hch] at htrue

/-- Witness for C10: updating `r2` of the fixture world to its current
proxied flag with no requested comment issues no `put` and returns `False`. -/
theorem c10_noop_mutation_guard_witness :
    updateDnsRecordProxyStatus wA okAll "acme" "z1" "r2" false none = (wA, false, 0) :=
  c10_noop_mutation_guard.1 wA okAll "acme" "z1" "r2" false none recWww
    (by decide) (by decide) trivial

/-! ### C7 — pagination termination -/

/-- Claim C7: with page size 1000, a fetch-page function returning bare-list
pages of sizes `[1000, 1000, 37]` yields exactly 2037 aggregated items from
exactly 3 fetches, under any fuel bound allowing at least 3 iterations (the
loop stops by itself on the short third page); and for every fetch-page
function, the loop stops on an empty page even when the response carries no
total-pages field. -/
theorem c7_pagination_termination :
    (∀ fuel : Nat,
      (paginateGet pages3 1000 (fuel + 3)).map (fun x => (x.1.length, x.2)) =
        some (2037, 3)) ∧
    (∀ (α : Type) (getter : Nat → PageResp α) (perPage page calls fuel : Nat)
      (acc : List α),
      0 < perPage → emptyNoTotalPages (getter page) = true →
      paginateAux getter perPage page acc calls (fuel + 1) = some (acc, calls + 1)) := by
  constructor
  · intro fuel
    have hp1 : pages3 1 = PageResp.plain (List.replicate 1000 ()) := by
      norm_num [pages3]
    have hp2 : pages3 2 = PageResp.plain (List.replicate 1000 ()) := by
      norm_num [pages3]
    have hp3 : pages3 3 = PageResp.plain (List.replicate 37 ()) := by
      norm_num [pages3]
    have step1 : ∀ n : Nat, paginateAux pages3 1000 1 [] 0 (n + 1) =
        paginateAux pages3 1000 2 (List.replicate 1000 ()) 1 n := by
      intro n
      simp only [paginateAux, hp1, List.length_replicate, List.nil_append]
      norm_num
    have step2 : ∀ n : Nat,
        paginateAux pages3 1000 2 (List.replicate 1000 ()) 1 (n + 1) =
        paginateAux pages3 1000 3 (List.replicate 1000 () ++ List.replicate 1000 ()) 2 n := by
      intro n
      simp only [paginateAux, hp2, List.length_replicate]
      norm_num
    have step3 : ∀ n : Nat,
        paginateAux pages3 1000 3 (List.replicate 1000 () ++ List.replicate 1000 ()) 2 (n + 1) =
        some ((List.replicate 1000 () ++ List.replicate 1000 ()) ++ List.replicate 37 (), 3) := by
      intro n
      simp only [paginateAux, hp3, List.length_replicate]
      norm_num
    have hf : fuel + 3 = (fuel + 1) + 1 + 1 := by omega
    unfold paginateGet
    rw [hf, step1, step2, step3]
    simp only [Option.map, List.length_append, List.length_replicate]
  · intro α getter perPage page calls fuel acc hpp hempty
    unfold emptyNoTotalPages at hempty
    cases hresp : getter page with
    | envelope result tp =>
      rw [hresp] at hempty
      have h1 : (result.getD []).isEmpty = true := by
        cases h : (result.getD []).isEmpty
        · simp [h] at hempty
        · rfl
      have h2 : tp = none := by
        cases tp with
        | none => rfl
        | some t => simp [h1] at hempty
      have h3 : result.getD [] = [] := by
        cases hr : result.getD [] with
        | nil => rfl
        | cons x xs => rw [hr] at h1; simp [List.isEmpty] at h1
      simp [paginateAux, hresp, h2, h3]
    | plain items =>
      rw [hresp] at hempty
      have h3 : items = [] := by
        cases hi : items with
        | nil => rfl
        | cons x xs => rw [hi] at hempty; simp [List.isEmpty] at hempty
      simp [paginateAux, hresp, h3, hpp]
    | other => rw [hresp] at hempty; simp at hempty

/-- Witness for C7: the always-empty bare-list fetcher stops after one fetch
with nothing aggregated, and the concrete three-page run aggregates 2037
items in 3 fetches. -/
theorem c7_pagination_termination_witness :
    (paginateGet pages3 1000 10).map (fun x => (x.1.length, x.2)) = some (2037, 3) ∧
    paginateAux (fun _ => PageResp.plain ([] : List Unit)) 1000 1 [] 0 1 = some ([], 1) :=
  ⟨c7_pagination_termination.1 7,
   c7_pagination_termination.2 Unit (fun _ => PageResp.plain []) 1000 1 0 0 []
     (by decide) (by decide)⟩

/-! ### C6 — retry exhaustion -/

/-- Helper: an always-failing retryable operation under the default
`max_retries = 5`, `base_sleep_seconds = 1.0` is invoked 6 times (the initial
call plus 5 retries), sleeps 5 times with durations 1, 2, 4, 8, 16 seconds,
and the 6th failure is re-raised unmodified. -/
theorem cfCall_always_retryable {α : Type} (op : Nat → Except Fault α) (f : Nat → Fault)
    (hop : ∀ n, op n = .error (f n)) (hret : ∀ n, retryableFault (f n) = true) :
    cfCall op 5 1 = ⟨.error (f 5), 6, [1, 2, 4, 8, 16]⟩ := by
  have step : ∀ (fuel att calls : Nat) (sleeps : List Rat), att < 5 →
      cfCallGo op 5 1 (fuel + 1) att calls sleeps =
      cfCallGo op 5 1 fuel (att + 1) (calls + 1)
        (sleeps ++ [pyMin (1 * ((2 ^ att : Nat) : Rat)) 30]) := by
    intro fuel att calls sleeps hlt
    have h1 : ¬(att + 1 > 5) := by omega
    simp [cfCallGo, hop calls, hret calls, h1, Nat.add_sub_cancel]
  have last : ∀ (fuel calls : Nat) (sleeps : List Rat),
      cfCallGo op 5 1 (fuel + 1) 5 calls sleeps = ⟨.error (f calls), calls + 1, sleeps⟩ := by
    intro fuel calls sleeps
    simp [cfCallGo, hop calls, hret calls]
  have c0 : cfCall op 5 1 = cfCallGo op 5 1 6 0 0 [] := rfl
  have c1 : cfCallGo op 5 1 6 0 0 [] =
      cfCallGo op 5 1 5 1 1 [pyMin (1 * ((2 ^ 0 : Nat) : Rat)) 30] := by
    simpa using step 5 0 0 [] (by omega)
  have c2 : cfCallGo op 5 1 5 1 1 [pyMin (1 * ((2 ^ 0 : Nat) : Rat)) 30] =
      cfCallGo op 5 1 4 2 2
        [pyMin (1 * ((2 ^ 0 : Nat) : Rat)) 30, pyMin (1 * ((2 ^ 1 : Nat) : Rat)) 30] := by
    simpa using step 4 1 1 _ (by omega)
  have c3 : cfCallGo op 5 1 4 2 2
        [pyMin (1 * ((2 ^ 0 : Nat) : Rat)) 30, pyMin (1 * ((2 ^ 1 : Nat) : Rat)) 30] =
      cfCallGo op 5 1 3 3 3
        [pyMin (1 * ((2 ^ 0 : Nat) : Rat)) 30, pyMin (1 * ((2 ^ 1 : Nat) : Rat)) 30,
         pyMin (1 * ((2 ^ 2 : Nat) : Rat)) 30] := by
    simpa using step 3 2 2 _ (by omega)
  have c4 : cfCallGo op 5 1 3 3 3
        [pyMin (1 * ((2 ^ 0 : Nat) : Rat)) 30, pyMin (1 * ((2 ^ 1 : Nat) : Rat)) 30,
         pyMin (1 * ((2 ^ 2 : Nat) : Rat)) 30] =
      cfCallGo op 5 1 2 4 4
        [pyMin (1 * ((2 ^ 0 : Nat) : Rat)) 30, pyMin (1 * ((2 ^ 1 : Nat) : Rat)) 30,
         pyMin (1 * ((2 ^ 2 : Nat) : Rat)) 30, pyMin (1 * ((2 ^ 3 : Nat) : Rat)) 30] := by
    simpa using step 2 3 3 _ (by omega)
  have c5 : cfCallGo op 5 1 2 4 4
        [pyMin (1 * ((2 ^ 0 : Nat) : Rat)) 30, pyMin (1 * ((2 ^ 1 : Nat) : Rat)) 30,
         pyMin (1 * ((2 ^ 2 : Nat) : Rat)) 30, pyMin (1 * ((2 ^ 3 : Nat) : Rat)) 30] =
      cfCallGo op 5 1 1 5 5
        [pyMin (1 * ((2 ^ 0 : Nat) : Rat)) 30, pyMin (1 * ((2 ^ 1 : Nat) : Rat)) 30,
         pyMin (1 * ((2 ^ 2 : Nat) : Rat)) 30, pyMin (1 * ((2 ^ 3 : Nat) : Rat)) 30,
         pyMin (1 * ((2 ^ 4 : Nat) : Rat)) 30] := by
    simpa using step 1 4 4 _ (by omega)
  have c6 : cfCallGo op 5 1 1 5 5
        [pyMin (1 * ((2 ^ 0 : Nat) : Rat)) 30, pyMin (1 * ((2 ^ 1 : Nat) : Rat)) 30,
         pyMin (1 * ((2 ^ 2 : Nat) : Rat)) 30, pyMin (1 * ((2 ^ 3 : Nat) : Rat)) 30,
         pyMin (1 * ((2 ^ 4 : Nat) : Rat)) 30] =
      ⟨.error (f 5), 6,
        [pyMin (1 * ((2 ^ 0 : Nat) : Rat)) 30, pyMin (1 * ((2 ^ 1 : Nat) : Rat)) 30,
         pyMin (1 * ((2 ^ 2 : Nat) : Rat)) 30, pyMin (1 * ((2 ^ 3 : Nat) : Rat)) 30,
         pyMin (1 * ((2 ^ 4 : Nat) : Rat)) 30]⟩ := by
    simpa using last 0 5 _
  have hs : [pyMin (1 * ((2 ^ 0 : Nat) : Rat)) 30, pyMin (1 * ((2 ^ 1 : Nat) : Rat)) 30,
             pyMin (1 * ((2 ^ 2 : Nat) : Rat)) 30, pyMin (1 * ((2 ^ 3 : Nat) : Rat)) 30,
             pyMin (1 * ((2 ^ 4 : Nat) : Rat)) 30] = ([1, 2, 4, 8, 16] : List Rat) := by
    norm_num [pyMin]
  rw [c0, c1, c2, c3, c4, c5, c6, hs]

/-- Counterexample to C6 as stated: under `max_retries = 5` (the call's
max-attempts knob) and base sleep 1 second, an operation that always raises a
retryable fault is attempted 6 times — not 5 — and the adapter sleeps 5 times
with durations 1, 2, 4, 8, 16 — not 4 times with 1, 2, 4, 8. -/
theorem c6_retry_exhaustion_counterexample :
    (cfCall alwaysRetryOp 5 1).calls = 6 ∧
    (cfCall alwaysRetryOp 5 1).sleeps = [1, 2, 4, 8, 16] ∧
    ¬((cfCall alwaysRetryOp 5 1).calls = 5 ∧
      (cfCall alwaysRetryOp 5 1).sleeps = [1, 2, 4, 8]) := by
  have h := cfCall_always_retryable alwaysRetryOp (fun _ => ⟨some 500, "server error"⟩)
    (fun _ => rfl)
    (fun _ => by show retryableFault ⟨some 500, "server error"⟩ = true; decide)
  rw [h]
  refine ⟨rfl, rfl, fun hc => ?_⟩
  exact absurd hc.1 (by decide)

/-- Claim C6 (amended): with `max_retries = 5` and base sleep 1 second, an
operation raising a retryable fault on every attempt is re-raised unmodified
after exactly 6 attempts (the initial call plus `max_retries` retries),
having slept exactly 5 times with durations 1, 2, 4, 8, 16 seconds (each
sleep capped at the 30-second per-attempt maximum); a non-retryable failure
propagates immediately on the first attempt with no sleep. -/
theorem c6_retry_exhaustion :
    (∀ (α : Type) (op : Nat → Except Fault α) (f : Nat → Fault),
      (∀ n, op n = .error (f n)) → (∀ n, retryableFault (f n) = true) →
      cfCall op 5 1 = ⟨.error (f 5), 6, [1, 2, 4, 8, 16]⟩) ∧
    (∀ (α : Type) (op : Nat → Except Fault α) (e : Fault) (m : Nat) (b : Rat),
      op 0 = .error e → retryableFault e = false →
      cfCall op m b = ⟨.error e, 1, []⟩) := by
  constructor
  · intro α op f hop hret
    exact cfCall_always_retryable op f hop hret
  · intro α op e m b hop hret
    have c0 : cfCall op m b = cfCallGo op m b (m + 1) 0 0 [] := rfl
    rw [c0]
    simp [cfCallGo, hop, hret]

/-- Witness for C6: the concrete HTTP-500 operation exhausts the retries with
the stated trace, and a concrete non-retryable fault propagates at once. -/
theorem c6_retry_exhaustion_witness :
    cfCall alwaysRetryOp 5 1 =
      ⟨.error ⟨some 500, "server error"⟩, 6, [1, 2, 4, 8, 16]⟩ ∧
    cfCall (fun _ => (.error ⟨none, "boom"⟩ : Except Fault Unit)) 5 1 =
      ⟨.error ⟨none, "boom"⟩, 1, []⟩ :=
  ⟨c6_retry_exhaustion.1 Unit alwaysRetryOp (fun _ => ⟨some 500, "server error"⟩)
      (fun _ => rfl)
      (fun _ => by show retryableFault ⟨some 500, "server error"⟩ = true; decide),
   c6_retry_exhaustion.2 Unit (fun _ => .error ⟨none, "boom"⟩) ⟨none, "boom"⟩ 5 1
      rfl (by decide)⟩

/-! ### C3 — restore after disable raises (code bug) -/

/-- Claim C3 fails on the code: after a live disable run that acts on the
fixture record (exactly one Change Record is appended and one `put` issued),
the subsequent live restore run over the saved state with the same filters
does *not* complete — it raises.  The restore body reads the name
`restore_original_comment` (`src/cloudflare_proxy_manager.py:583`), which is
neither a parameter of `restore_proxies` nor a global, so Python raises
`NameError` on the first record whose snapshot has `modified` and `proxied`
set (and `main()` even passes `restore_original_comment=` as a keyword
argument the method does not accept, a `TypeError`).  The record's remote
proxy-flag is never set back and `modified` is never reset. -/
theorem c3_restore_raises :
    (scanAndDisableProxies cfgLive okAll [acctA] wA []).changes.length = 1 ∧
    (scanAndDisableProxies cfgLive okAll [acctA] wA []).puts = 1 ∧
    (restoreProxies rcfgLive [acctA] true
        (scanAndDisableProxies cfgLive okAll [acctA] wA []).st
        (scanAndDisableProxies cfgLive okAll [acctA] wA []).w).outcome =
      Except.error () ∧
    (restoreProxies rcfgLive [acctA] true
        (scanAndDisableProxies cfgLive okAll [acctA] wA []).st
        (scanAndDisableProxies cfgLive okAll [acctA] wA []).w).puts = 0 :=
  ⟨rfl, rfl, rfl, rfl⟩

/-! ### C8 — restore is not best-effort per record (code bug) -/

/-- A saved state with two snapshots both eligible for restoration
(`modified = true`, recorded proxy-flag `true`). -/
def stTwoEligible : ProxyState :=
  [("acme",
    [("z1",
      ⟨"example.com",
        [("r1", ⟨"api.example.com", "A", "1.2.3.4", true, none, true, false, none⟩),
         ("r2", ⟨"app.example.com", "A", "5.6.7.8", true, none, true, false, none⟩)]⟩)])]

/-- The remote world matching `stTwoEligible` after a disable run. -/
def wTwoDisabled : Remote :=
  [("acme",
    [⟨"z1", "example.com",
      [⟨"r1", "api.example.com", "A", "1.2.3.4", some false, none⟩,
       ⟨"r2", "app.example.com", "A", "5.6.7.8", some false, none⟩]⟩])]

/-- Claim C8 fails on the code: in a live restore run over a state with two
eligible records, the run aborts on the *first* eligible record — before any
remote mutation is attempted — because line 583 reads the undefined name
`restore_original_comment` (`NameError`).  The second record of the same zone
is therefore never processed and the account's error counter (which only the
unreachable `except` block at lines 625-635 increments) stays untouched;
no per-record best-effort handling ever happens.  Additionally, even with
that name defined, a failing remote mutation is swallowed inside
`update_dns_record_proxy_status` (returns `False`,
`src/cloudflare_proxy_manager.py:345-347`), so the restore-side `except` that
counts errors could still never fire for mutation failures. -/
theorem c8_restore_aborts :
    (restoreProxies rcfgLive [acctA] true stTwoEligible wTwoDisabled).outcome =
      Except.error () ∧
    (restoreProxies rcfgLive [acctA] true stTwoEligible wTwoDisabled).puts = 0 :=
  ⟨rfl, rfl⟩

/-! ### Association-list lemmas -/

theorem alGet_alSet_self {β : Type} (l : List (String × β)) (k : String) (v : β) :
    alGet (alSet l k v) k = some v := by
  induction l with
  | nil => simp [alSet, alGet]
  | cons h t ih =>
    obtain ⟨k', v'⟩ := h
    by_cases hk : k' = k
    · subst hk; simp [alSet, alGet]
    · simp [alSet, alGet, hk, ih]

theorem alGet_alSet_ne {β : Type} (l : List (String × β)) (k k' : String) (v : β)
    (h : k ≠ k') : alGet (alSet l k v) k' = alGet l k' := by
  induction l with
  | nil => simp [alSet, alGet, h]
  | cons hd t ih =>
    obtain ⟨k'', v''⟩ := hd
    by_cases hk : k'' = k
    · subst hk; simp [alSet, alGet, h]
    · simp only [alSet, if_neg hk, alGet]
      by_cases hk' : k'' = k'
      · simp [hk']
      · simp [hk', ih]

theorem alSet_self {β : Type} (l : List (String × β)) (k : String) (v : β)
    (h : alGet l k = some v) : alSet l k v = l := by
  induction l with
  | nil => simp [alGet] at h
  | cons hd t ih =>
    obtain ⟨k', v'⟩ := hd
    by_cases hk : k' = k
    · subst hk
      have hv : v' = v := by simpa [alGet] using h
      simp [alSet, hv]
    · simp only [alGet, if_neg hk] at h
      simp [alSet, hk, ih h]

theorem alGet_alModify_self {β : Type} (l : List (String × β)) (k : String)
    (f : β → β) : alGet (alModify l k f) k = (alGet l k).map f := by
  induction l with
  | nil => simp [alModify, alGet]
  | cons hd t ih =>
    obtain ⟨k', v'⟩ := hd
    by_cases hk : k' = k
    · subst hk; simp [alModify, alGet]
    · simp [alModify, alGet, hk, ih]

theorem alGet_alModify_ne {β : Type} (l : List (String × β)) (k k' : String)
    (f : β → β) (h : k ≠ k') : alGet (alModify l k f) k' = alGet l k' := by
  induction l with
  | nil => simp [alModify, alGet]
  | cons hd t ih =>
    obtain ⟨k'', v''⟩ := hd
    by_cases hk : k'' = k
    · subst hk; simp [alModify, alGet, h]
    · simp only [alModify, if_neg hk, alGet]
      by_cases hk' : k'' = k'
      · simp [hk']
      · simp [hk', ih]

/-! ### Snapshot-lookup lemmas for the state-store primitives -/

theorem lookupSnap_ensureZone (st : ProxyState) (a z zn a' z' r' : String) :
    lookupSnap (ensureZone st a z zn) a' z' r' = lookupSnap st a' z' r' := by
  have key : ∀ (zs : List (String × ZoneState)),
      (alGet (match alGet zs z with
              | some _ => zs
              | none => alSet zs z ⟨zn, []⟩) z').bind (fun zo => alGet zo.records r') =
      (alGet zs z').bind (fun zo => alGet zo.records r') := by
    intro zs
    cases hzz : alGet zs z with
    | some zo => rfl
    | none =>
      by_cases hzeq : z = z'
      · subst hzeq
        rw [alGet_alSet_self, hzz]
        simp [alGet]
      · rw [alGet_alSet_ne _ _ _ _ hzeq]
  unfold ensureZone lookupSnap
  by_cases ha : a = a'
  · subst ha
    rw [alGet_alSet_self]
    simp only [Option.some_bind]
    cases hz : alGet st a with
    | none =>
      simp only [Option.getD_none, Option.none_bind]
      rw [key []]
      simp [alGet]
    | some zs =>
      simp only [Option.getD_some, Option.some_bind]
      exact key zs
  · rw [alGet_alSet_ne _ _ _ _ ha]

theorem ensureZone_present (st : ProxyState) (a z zn : String) :
    ∃ zs zo, alGet (ensureZone st a z zn) a = some zs ∧ alGet zs z = some zo := by
  unfold ensureZone
  cases hzz : alGet ((alGet st a).getD []) z with
  | some zo =>
    simp only [hzz]
    exact ⟨(alGet st a).getD [], zo, alGet_alSet_self _ _ _, hzz⟩
  | none =>
    simp only [hzz]
    exact ⟨alSet ((alGet st a).getD []) z ⟨zn, []⟩, ⟨zn, []⟩,
      alGet_alSet_self _ _ _, alGet_alSet_self _ _ _⟩

theorem ensureZone_of_present (st : ProxyState) (a z zn : String)
    (zs : List (String × ZoneState)) (zo : ZoneState)
    (ha : alGet st a = some zs) (hz : alGet zs z = some zo) :
    ensureZone st a z zn = st := by
  unfold ensureZone
  simp only [ha, Option.getD_some, hz]
  exact alSet_self st a zs ha

theorem lookupSnap_insertSnap_self (st : ProxyState) (a z rid : String) (v : Snapshot)
    (zs : List (String × ZoneState)) (zo : ZoneState)
    (ha : alGet st a = some zs) (hz : alGet zs z = some zo) :
    lookupSnap (insertSnap st a z rid v) a z rid = some v := by
  unfold insertSnap lookupSnap
  rw [alGet_alModify_self, ha]
  simp only [Option.map_some', Option.some_bind]
  rw [alGet_alModify_self, hz]
  simp only [Option.map_some', Option.some_bind]
  exact alGet_alSet_self _ _ _

theorem lookupSnap_insertSnap_ne (st : ProxyState) (a z rid a' z' r' : String)
    (v : Snapshot) (h : a ≠ a' ∨ z ≠ z' ∨ rid ≠ r') :
    lookupSnap (insertSnap st a z rid v) a' z' r' = lookupSnap st a' z' r' := by
  unfold insertSnap lookupSnap
  by_cases ha : a = a'
  · subst ha
    rw [alGet_alModify_self]
    cases hz : alGet st a with
    | none => simp
    | some zs =>
      simp only [Option.map_some', Option.some_bind]
      by_cases hzeq : z = z'
      · subst hzeq
        rw [alGet_alModify_self]
        cases hzz : alGet zs z with
        | none => simp
        | some zo =>
          simp only [Option.map_some', Option.some_bind]
          rcases h with h | h | h
          · exact absurd rfl h
          · exact absurd rfl h
          · exact alGet_alSet_ne _ _ _ _ h
      · rw [alGet_alModify_ne _ _ _ _ hzeq]
  · rw [alGet_alModify_ne _ _ _ _ ha]

theorem lookupSnap_modifySnap_self (st : ProxyState) (a z rid : String)
    (f : Snapshot → Snapshot) :
    lookupSnap (modifySnap st a z rid f) a z rid = (lookupSnap st a z rid).map f := by
  unfold modifySnap lookupSnap
  rw [alGet_alModify_self]
  cases ha : alGet st a with
  | none => simp
  | some zs =>
    simp only [Option.map_some', Option.some_bind]
    rw [alGet_alModify_self]
    cases hz : alGet zs z with
    | none => simp
    | some zo =>
      simp only [Option.map_some', Option.some_bind]
      exact alGet_alModify_self _ _ _

theorem lookupSnap_modifySnap_ne (st : ProxyState) (a z rid a' z' r' : String)
    (f : Snapshot → Snapshot) (h : a ≠ a' ∨ z ≠ z' ∨ rid ≠ r') :
    lookupSnap (modifySnap st a z rid f) a' z' r' = lookupSnap st a' z' r' := by
  unfold modifySnap lookupSnap
  by_cases ha : a = a'
  · subst ha
    rw [alGet_alModify_self]
    cases hz : alGet st a with
    | none => simp
    | some zs =>
      simp only [Option.map_some', Option.some_bind]
      by_cases hzeq : z = z'
      · subst hzeq
        rw [alGet_alModify_self]
        cases hzz : alGet zs z with
        | none => simp
        | some zo =>
          simp only [Option.map_some', Option.some_bind]
          rcases h with h | h | h
          · exact absurd rfl h
          · exact absurd rfl h
          · exact alGet_alModify_ne _ _ _ _ h
      · rw [alGet_alModify_ne _ _ _ _ hzeq]
  · rw [alGet_alModify_ne _ _ _ _ ha]

/-! ### Remote-world lemmas -/

theorem find?_map {α β : Type} (g : α → β) (p : β → Bool) (l : List α) :
    (l.map g).find? p = (l.find? fun x => p (g x)).map g := by
  induction l with
  | nil => rfl
  | cons h t ih =>
    by_cases hp : p (g h)
    · simp [List.find?, hp]
    · simp only [List.map_cons, List.find?]
      rw [Bool.not_eq_true] at hp
      simp only [hp]
      exact ih

/-- The in-zone record rewrite done by a `put`. -/
def putRec (z rid : String) (f : RemoteRecord → RemoteRecord) (zo : RemoteZone) :
    RemoteZone :=
  if zo.id == z then
    { zo with records := zo.records.map fun r => if r.id == rid then f r else r }
  else zo

theorem worldZone_worldUpdateRecord (w : Remote) (a z rid : String)
    (f : RemoteRecord → RemoteRecord) (a' z' : String) :
    worldZone (worldUpdateRecord w a z rid f) a' z' =
      if a = a' then (worldZone w a' z').map (putRec z rid f)
      else worldZone w a' z' := by
  unfold worldZone worldUpdateRecord zonesOf putRec
  by_cases ha : a = a'
  · subst ha
    rw [alGet_alModify_self, if_pos rfl]
    cases hz : alGet w a with
    | none => simp
    | some zones =>
      simp only [Option.map_some', Option.getD_some]
      rw [find?_map]
      have hfun : (fun x : RemoteZone =>
          (if x.id == z then
            { x with records := x.records.map fun r => if r.id == rid then f r else r }
           else x).id == z') = fun x : RemoteZone => x.id == z' := by
        funext x
        by_cases h : x.id == z <;> simp [h]
      rw [hfun]
  · rw [alGet_alModify_ne _ _ _ _ ha, if_neg ha]

theorem worldZone_id (w : Remote) (a z : String) (zo : RemoteZone)
    (h : worldZone w a z = some zo) : (zo.id == z) = true := by
  unfold worldZone at h
  have h2 := List.find?_some h
  simpa using h2

theorem getDnsRecords_wu_ne (w : Remote) (a z rid : String)
    (f : RemoteRecord → RemoteRecord) (a' z' : String) (h : a ≠ a' ∨ z ≠ z') :
    getDnsRecords (worldUpdateRecord w a z rid f) a' z' = getDnsRecords w a' z' := by
  unfold getDnsRecords
  rw [worldZone_worldUpdateRecord]
  rcases h with h | h
  · rw [if_neg h]
  · by_cases ha : a = a'
    · rw [if_pos ha]
      cases hz : worldZone w a' z' with
      | none => simp
      | some zo =>
        have hid : (zo.id == z') = true := worldZone_id w a' z' zo hz
        have : putRec z rid f zo = zo := by
          unfold putRec
          have : ¬(zo.id == z) = true := by
            simp only [beq_iff_eq] at hid ⊢
            rw [hid]
            exact fun hh => h hh.symm
          simp [this]
        simp [this]
    · rw [if_neg ha]

theorem getDnsRecords_wu_self (w : Remote) (a z rid : String)
    (f : RemoteRecord → RemoteRecord) :
    getDnsRecords (worldUpdateRecord w a z rid f) a z =
      (getDnsRecords w a z).map fun r => if r.id == rid then f r else r := by
  unfold getDnsRecords
  rw [worldZone_worldUpdateRecord, if_pos rfl]
  cases hz : worldZone w a z with
  | none => simp
  | some zo =>
    have hid : (zo.id == z) = true := worldZone_id w a z zo hz
    simp only [Option.map_some']
    unfold putRec
    simp [hid]

theorem worldGetRecord_eq_find (w : Remote) (a z rid : String) :
    worldGetRecord w a z rid = (getDnsRecords w a z).find? fun r => r.id == rid := by
  unfold worldGetRecord getDnsRecords
  cases hz : worldZone w a z with
  | none => rfl
  | some zo => rfl

theorem worldGetRecord_id (w : Remote) (a z rid : String) (r : RemoteRecord)
    (h : worldGetRecord w a z rid = some r) : r.id = rid := by
  rw [worldGetRecord_eq_find] at h
  have := List.find?_some h
  simpa [beq_iff_eq] using this

/-- The (id, name) shape of an account's zone list. -/
def zonesShape (w : Remote) (a : String) : List (String × String) :=
  (zonesOf w a).map fun z => (z.id, z.name)

theorem zonesShape_wu (w : Remote) (a z rid : String)
    (f : RemoteRecord → RemoteRecord) (a' : String) :
    zonesShape (worldUpdateRecord w a z rid f) a' = zonesShape w a' := by
  unfold zonesShape zonesOf worldUpdateRecord
  by_cases ha : a = a'
  · subst ha
    rw [alGet_alModify_self]
    cases hz : alGet w a with
    | none => simp
    | some zones =>
      simp only [Option.map_some', Option.getD_some, List.map_map]
      apply List.map_congr_left
      intro x _
      by_cases h : (x.id == z) = true <;> simp [Function.comp, h]
  · rw [alGet_alModify_ne _ _ _ _ ha]

theorem recIds_wu (w : Remote) (a z rid : String) (f : RemoteRecord → RemoteRecord)
    (hf : ∀ x : RemoteRecord, x.id = rid → (f x).id = x.id) (a' z' : String) :
    (getDnsRecords (worldUpdateRecord w a z rid f) a' z').map (·.id) =
      (getDnsRecords w a' z').map (·.id) := by
  by_cases h : a = a' ∧ z = z'
  · obtain ⟨ha, hz⟩ := h
    subst ha; subst hz
    rw [getDnsRecords_wu_self, List.map_map]
    apply List.map_congr_left
    intro r _
    by_cases hr' : r.id = rid
    · simp [beq_iff_eq, hr', hf r hr']
    · simp [beq_iff_eq, hr']
  · rw [getDnsRecords_wu_ne]
    rcases not_and_or.mp h with h | h
    · exact Or.inl h
    · exact Or.inr h

theorem applyUpdate_id (r : RemoteRecord) (p : Bool) (c : Option String) :
    (applyUpdate r p c).1.id = r.id := by
  unfold applyUpdate
  by_cases hp : r.proxied ≠ some p <;> cases c <;> simp [hp] <;> split <;> rfl

theorem find?_of_mem_nodup (l : List RemoteRecord) (r : RemoteRecord)
    (hmem : r ∈ l) (hnd : (l.map (·.id)).Nodup) :
    l.find? (fun x => x.id == r.id) = some r := by
  induction l with
  | nil => cases hmem
  | cons h t ih =>
    rcases List.mem_cons.mp hmem with rfl | hmem'
    · simp [List.find?]
    · simp only [List.map_cons, List.nodup_cons] at hnd
      have hne : ¬(h.id == r.id) = true := by
        simp only [beq_iff_eq]
        intro hh
        exact hnd.1 (hh ▸ List.mem_map_of_mem (·.id) hmem')
      simp only [List.find?, hne]
      simp only [Bool.false_eq_true, if_false] at *
      exact ih hmem' hnd.2

/-! ### Snapshot immutability machinery (C1) -/

/-- The "as first observed" fields of two snapshots agree (everything except
`modified` and the annotation-override fields `comment_modified` /
`comment_after`). -/
def immutEq (s s' : Snapshot) : Prop :=
  s'.name = s.name ∧ s'.rtype = s.rtype ∧ s'.content = s.content ∧
  s'.proxied = s.proxied ∧ s'.comment = s.comment

theorem immutEq_refl (s : Snapshot) : immutEq s s :=
  ⟨rfl, rfl, rfl, rfl, rfl⟩

theorem immutEq_trans {s t u : Snapshot} (h1 : immutEq s t) (h2 : immutEq t u) :
    immutEq s u :=
  ⟨h2.1.trans h1.1, h2.2.1.trans h1.2.1, h2.2.2.1.trans h1.2.2.1,
   h2.2.2.2.1.trans h1.2.2.2.1, h2.2.2.2.2.trans h1.2.2.2.2⟩

/-- Every snapshot present in `st` is still present in `st'` with its
first-observed fields unchanged. -/
def snapPres (st st' : ProxyState) : Prop :=
  ∀ a z r s, lookupSnap st a z r = some s →
    ∃ s', lookupSnap st' a z r = some s' ∧ immutEq s s'

theorem snapPres_refl (st : ProxyState) : snapPres st st :=
  fun _ _ _ s h => ⟨s, h, immutEq_refl s⟩

theorem snapPres_trans {st1 st2 st3 : ProxyState}
    (h1 : snapPres st1 st2) (h2 : snapPres st2 st3) : snapPres st1 st3 := by
  intro a z r s hs
  obtain ⟨t, ht, hst⟩ := h1 a z r s hs
  obtain ⟨u, hu, htu⟩ := h2 a z r t ht
  exact ⟨u, hu, immutEq_trans hst htu⟩

theorem snapPres_ensureZone (st : ProxyState) (a z zn : String) :
    snapPres st (ensureZone st a z zn) := by
  intro a' z' r' s hs
  refine ⟨s, ?_, immutEq_refl s⟩
  rw [lookupSnap_ensureZone]
  exact hs

theorem snapPres_insert_new (st : ProxyState) (a z rid : String) (v : Snapshot)
    (h : lookupSnap st a z rid = none) : snapPres st (insertSnap st a z rid v) := by
  intro a' z' r' s hs
  have hne : a ≠ a' ∨ z ≠ z' ∨ rid ≠ r' := by
    by_contra hc
    push_neg at hc
    obtain ⟨rfl, rfl, rfl⟩ := hc
    rw [h] at hs
    cases hs
  exact ⟨s, (lookupSnap_insertSnap_ne st a z rid a' z' r' v hne).symm ▸ hs,
    immutEq_refl s⟩

theorem snapPres_modify (st : ProxyState) (a z rid : String)
    (f : Snapshot → Snapshot) (hf : ∀ s, immutEq s (f s)) :
    snapPres st (modifySnap st a z rid f) := by
  intro a' z' r' s hs
  by_cases hk : a = a' ∧ z = z' ∧ rid = r'
  · obtain ⟨rfl, rfl, rfl⟩ := hk
    refine ⟨f s, ?_, hf s⟩
    rw [lookupSnap_modifySnap_self, hs]
    rfl
  · have hne : a ≠ a' ∨ z ≠ z' ∨ rid ≠ r' := by
      rcases not_and_or.mp hk with h | h
      · exact Or.inl h
      · rcases not_and_or.mp h with h | h
        · exact Or.inr (Or.inl h)
        · exact Or.inr (Or.inr h)
    exact ⟨s, (lookupSnap_modifySnap_ne st a z rid a' z' r' f hne).symm ▸ hs,
      immutEq_refl s⟩

theorem snapPres_getOrCreate (st : ProxyState) (a z rid : String) (seed : Snapshot) :
    snapPres st (getOrCreateSnap st a z rid seed).2 := by
  unfold getOrCreateSnap
  cases h : lookupSnap st a z rid with
  | some s => exact snapPres_refl st
  | none => exact snapPres_insert_new st a z rid seed h

theorem snapPres_foldl {σ α : Type} (proj : σ → ProxyState) (step : σ → α → σ)
    (h : ∀ s x, snapPres (proj s) (proj (step s x))) :
    ∀ (l : List α) (s : σ), snapPres (proj s) (proj (List.foldl step s l)) := by
  intro l
  induction l with
  | nil => intro s; exact snapPres_refl _
  | cons x xs ih =>
    intro s
    exact snapPres_trans (h s x) (ih (step s x))

theorem st2Of_snapPres (cfg : DisCfg) (acct : AccountCfg) (zid zname : String)
    (st1 : ProxyState) (rs : Snapshot) (r : RemoteRecord) :
    snapPres st1 (st2Of cfg acct zid zname st1 rs r) := by
  unfold st2Of
  split
  · exact snapPres_refl _
  · split
    · exact snapPres_refl _
    · exact snapPres_modify _ _ _ _ _ (fun s => ⟨rfl, rfl, rfl, rfl, rfl⟩)

theorem disableAct_snapPres (cfg : DisCfg) (putOk : String → String → Bool)
    (acct : AccountCfg) (zid zname : String) (fs0 : DisFlowSt) (r : RemoteRecord)
    (rs : Snapshot) (st1 : ProxyState) :
    snapPres st1 (disableAct cfg putOk acct zid zname fs0 r rs st1).st := by
  unfold disableAct
  simp only [apply_ite DisFlowSt.st]
  repeat' split
  all_goals first
    | exact st2Of_snapPres cfg acct zid zname st1 rs r
    | exact snapPres_trans (st2Of_snapPres cfg acct zid zname st1 rs r)
        (snapPres_modify _ _ _ _ _ (fun s => ⟨rfl, rfl, rfl, rfl, rfl⟩))

theorem disableProcess_snapPres (cfg : DisCfg) (putOk : String → String → Bool)
    (acct : AccountCfg) (zid zname : String) (fs0 : DisFlowSt) (r : RemoteRecord) :
    snapPres fs0.st (disableProcess cfg putOk acct zid zname fs0 r).st := by
  have h1 : snapPres fs0.st (getOrCreateSnap fs0.st acct.name zid r.id (snapSeed r)).2 :=
    snapPres_getOrCreate _ _ _ _ _
  unfold disableProcess
  split
  · exact snapPres_trans h1 (disableAct_snapPres cfg putOk acct zid zname fs0 r _ _)
  · exact h1

theorem disableRecordStep_snapPres (cfg : DisCfg) (putOk : String → String → Bool)
    (acct : AccountCfg) (zid zname : String) (fs : DisFlowSt) (r : RemoteRecord) :
    snapPres fs.st (disableRecordStep cfg putOk acct zid zname fs r).st := by
  unfold disableRecordStep
  split
  · exact snapPres_refl _
  split
  · exact snapPres_refl _
  split
  · exact snapPres_refl _
  exact disableProcess_snapPres cfg putOk acct zid zname
    { fs with cnt := { fs.cnt with records_processed := fs.cnt.records_processed + 1 } } r

theorem disableZone_snapPres (cfg : DisCfg) (putOk : String → String → Bool)
    (acct : AccountCfg) (zid zname : String) (fs : DisFlowSt) :
    snapPres fs.st (disableZone cfg putOk acct zid zname fs).st := by
  unfold disableZone
  refine snapPres_trans (snapPres_ensureZone fs.st acct.name zid zname) ?_
  exact snapPres_foldl DisFlowSt.st (disableRecordStep cfg putOk acct zid zname)
    (fun s x => disableRecordStep_snapPres cfg putOk acct zid zname s x) _
    { fs with
      st := ensureZone fs.st acct.name zid zname
      cnt := { fs.cnt with zones_processed := fs.cnt.zones_processed + 1 } }

set_option maxHeartbeats 1000000 in
theorem disableAccount_snapPres (cfg : DisCfg) (putOk : String → String → Bool)
    (rs : DisRunSt) (acct : AccountCfg) :
    snapPres rs.st (disableAccount cfg putOk rs acct).st := by
  unfold disableAccount
  split
  · exact snapPres_refl _
  · have h := snapPres_foldl DisFlowSt.st
      (fun (fs : DisFlowSt) (z : RemoteZone) => disableZone cfg putOk acct z.id z.name fs)
      (fun s x => disableZone_snapPres cfg putOk acct x.id x.name s)
      (selectZones cfg.selZones (zonesOf rs.w acct.name))
      ⟨rs.st, rs.w, rs.changes, rs.total, rs.puts, ⟨0, 0, 0, 0⟩⟩
    exact h

theorem scanAndDisable_snapPres (cfg : DisCfg) (putOk : String → String → Bool)
    (accts : List AccountCfg) (w : Remote) (st : ProxyState) :
    snapPres st (scanAndDisableProxies cfg putOk accts w st).st := by
  unfold scanAndDisableProxies
  exact snapPres_foldl DisRunSt.st (disableAccount cfg putOk)
    (fun s x => disableAccount_snapPres cfg putOk s x) accts ⟨st, w, [], 0, 0, []⟩

theorem restoreProxies_st_unchanged (cfg : ResCfg) (accts : List AccountCfg)
    (ex : Bool) (st : ProxyState) (w : Remote) :
    (restoreProxies cfg accts ex st w).st = st := by
  unfold restoreProxies
  split
  · rfl
  · split <;> rfl

theorem lookupSnap_some_elim (st : ProxyState) (a z rid : String) (s : Snapshot)
    (h : lookupSnap st a z rid = some s) :
    ∃ zs zo, alGet st a = some zs ∧ alGet zs z = some zo ∧
      alGet zo.records rid = some s := by
  unfold lookupSnap at h
  cases ha : alGet st a with
  | none => rw [ha] at h; cases h
  | some zs =>
    rw [ha] at h
    simp only [Option.some_bind] at h
    cases hz : alGet zs z with
    | none => rw [hz] at h; cases h
    | some zo =>
      rw [hz] at h
      simp only [Option.some_bind] at h
      refine ⟨zs, zo, rfl, ?_, h⟩
      rw [hz]

/-! ### C1 — snapshot-once -/

/-- `recApi` observed again later with the opposite proxy flag and an
annotation. -/
def recApiFlip : RemoteRecord :=
  ⟨"r1", "api.example.com", "A", "1.2.3.4", some false, some "changed"⟩

/-- Claim C1: the first get-or-create of a snapshot seeds it from the fields
observed at that moment with `modified = false`; every later get-or-create
for the same key returns the stored snapshot and leaves the state unchanged,
whatever is observed then; a whole disable run only ever changes the
`modified` / `comment_modified` / `comment_after` fields of stored snapshots
(their first-observed fields survive, `snapPres`); and a restore run returns
with the state document identical (its only mutations sit behind the
unreachable code after the undefined-name read, so nothing changes at all). -/
theorem c1_snapshot_once :
    (∀ (st : ProxyState) (a z zn : String) (r : RemoteRecord),
      lookupSnap st a z r.id = none →
      (getOrCreateSnapshot st a z zn r).1 = snapSeed r ∧
      lookupSnap (getOrCreateSnapshot st a z zn r).2 a z r.id = some (snapSeed r) ∧
      (snapSeed r).name = r.name ∧ (snapSeed r).rtype = r.rtype ∧
      (snapSeed r).content = r.content ∧ (snapSeed r).proxied = r.proxied.getD false ∧
      (snapSeed r).comment = r.comment ∧ (snapSeed r).modified = false) ∧
    (∀ (st : ProxyState) (a z zn : String) (r : RemoteRecord) (s : Snapshot),
      lookupSnap st a z r.id = some s →
      getOrCreateSnapshot st a z zn r = (s, st)) ∧
    (∀ (cfg : DisCfg) (putOk : String → String → Bool) (accts : List AccountCfg)
      (w : Remote) (st : ProxyState),
      snapPres st (scanAndDisableProxies cfg putOk accts w st).st) ∧
    (∀ (cfg : ResCfg) (accts : List AccountCfg) (ex : Bool) (st : ProxyState)
      (w : Remote), (restoreProxies cfg accts ex st w).st = st) := by
  refine ⟨?_, ?_, scanAndDisable_snapPres, restoreProxies_st_unchanged⟩
  · intro st a z zn r hnone
    have hez := lookupSnap_ensureZone st a z zn a z r.id
    have hnone' : lookupSnap (ensureZone st a z zn) a z r.id = none := by
      rw [hez]; exact hnone
    obtain ⟨zs, zo, hzs, hzo⟩ := ensureZone_present st a z zn
    unfold getOrCreateSnapshot getOrCreateSnap
    rw [hnone']
    refine ⟨rfl, ?_, rfl, rfl, rfl, rfl, rfl, rfl⟩
    exact lookupSnap_insertSnap_self (ensureZone st a z zn) a z r.id (snapSeed r)
      zs zo hzs hzo
  · intro st a z zn r s hsome
    obtain ⟨zs, zo, hzs, hzo, _⟩ := lookupSnap_some_elim st a z r.id s hsome
    unfold getOrCreateSnapshot getOrCreateSnap
    rw [ensureZone_of_present st a z zn zs zo hzs hzo, hsome]

/-- Witness for C1: seeding from an empty store records the first-observed
record (proxied, no comment), and a second get-or-create with the opposite
observed proxy flag and a new annotation returns the first snapshot and
leaves the store untouched. -/
theorem c1_snapshot_once_witness :
    (getOrCreateSnapshot [] "acme" "z1" "example.com" recApi).1 = snapSeed recApi ∧
    getOrCreateSnapshot (getOrCreateSnapshot [] "acme" "z1" "example.com" recApi).2
        "acme" "z1" "example.com" recApiFlip =
      (snapSeed recApi, (getOrCreateSnapshot [] "acme" "z1" "example.com" recApi).2) :=
  ⟨(c1_snapshot_once.1 [] "acme" "z1" "example.com" recApi (by decide)).1,
   c1_snapshot_once.2.1 (getOrCreateSnapshot [] "acme" "z1" "example.com" recApi).2
     "acme" "z1" "example.com" recApiFlip (snapSeed recApi) (by decide)⟩

/-! ### Characterisation of the disable record step -/

/-- A record is in scope for the disable flow: supported type, name filters,
tag filters (`src/cloudflare_proxy_manager.py:396-409`). -/
def passesFilters (cfg : DisCfg) (r : RemoteRecord) : Bool :=
  ["A", "AAAA", "CNAME"].contains r.rtype &&
  matchesNameFilters r.name cfg.incl cfg.excl &&
  matchesTagFilters (recFields r) cfg.tags cfg.tagFields

theorem step_skip (cfg : DisCfg) (putOk : String → String → Bool) (acct : AccountCfg)
    (zid zname : String) (fs : DisFlowSt) (r : RemoteRecord)
    (h : passesFilters cfg r = false) :
    disableRecordStep cfg putOk acct zid zname fs r = fs := by
  unfold passesFilters at h
  unfold disableRecordStep
  by_cases h1 : (["A", "AAAA", "CNAME"].contains r.rtype) = true
  · rw [h1] at h
    by_cases h2 : (matchesNameFilters r.name cfg.incl cfg.excl) = true
    · rw [h2] at h
      by_cases h3 : (matchesTagFilters (recFields r) cfg.tags cfg.tagFields) = true
      · rw [h3] at h
        simp at h
      · rw [Bool.not_eq_true] at h3
        rw [h1, h2, h3]
        simp
    · rw [Bool.not_eq_true] at h2
      rw [h1, h2]
      simp
  · rw [Bool.not_eq_true] at h1
    rw [h1]
    simp

theorem step_processed (cfg : DisCfg) (putOk : String → String → Bool)
    (acct : AccountCfg) (zid zname : String) (fs : DisFlowSt) (r : RemoteRecord)
    (h : passesFilters cfg r = true) :
    disableRecordStep cfg putOk acct zid zname fs r =
      disableProcess cfg putOk acct zid zname
        { fs with cnt := { fs.cnt with records_processed := fs.cnt.records_processed + 1 } } r := by
  unfold passesFilters at h
  rw [Bool.and_eq_true, Bool.and_eq_true] at h
  obtain ⟨⟨h1, h2⟩, h3⟩ := h
  unfold disableRecordStep
  rw [h1, h2, h3]
  simp

theorem process_gate_false (cfg : DisCfg) (putOk : String → String → Bool)
    (acct : AccountCfg) (zid zname : String) (fs0 : DisFlowSt) (r : RemoteRecord)
    (hg : (r.proxied.getD false &&
      !(getOrCreateSnap fs0.st acct.name zid r.id (snapSeed r)).1.modified) = false) :
    disableProcess cfg putOk acct zid zname fs0 r =
      { fs0 with st := (getOrCreateSnap fs0.st acct.name zid r.id (snapSeed r)).2 } := by
  unfold disableProcess
  simp [hg]

theorem process_gate_true (cfg : DisCfg) (putOk : String → String → Bool)
    (acct : AccountCfg) (zid zname : String) (fs0 : DisFlowSt) (r : RemoteRecord)
    (hg : (r.proxied.getD false &&
      !(getOrCreateSnap fs0.st acct.name zid r.id (snapSeed r)).1.modified) = true) :
    disableProcess cfg putOk acct zid zname fs0 r =
      disableAct cfg putOk acct zid zname fs0 r
        (getOrCreateSnap fs0.st acct.name zid r.id (snapSeed r)).1
        (getOrCreateSnap fs0.st acct.name zid r.id (snapSeed r)).2 := by
  unfold disableProcess
  simp [hg]

theorem act_dry (cfg : DisCfg) (putOk : String → String → Bool) (acct : AccountCfg)
    (zid zname : String) (fs0 : DisFlowSt) (r : RemoteRecord) (rs : Snapshot)
    (st1 : ProxyState) (hd : cfg.dryRun = true) :
    disableAct cfg putOk acct zid zname fs0 r rs st1 =
      { fs0 with
        st := st2Of cfg acct zid zname st1 rs r
        changes := fs0.changes ++
          [mkChangeRec "would_disable_proxy" acct zname zid r rs (dcOf cfg acct zid zname r)]
        total := fs0.total + 1
        cnt := { fs0.cnt with records_modified := fs0.cnt.records_modified + 1 } } := by
  unfold disableAct
  simp [hd]

theorem act_live_success (cfg : DisCfg) (putOk : String → String → Bool)
    (acct : AccountCfg) (zid zname : String) (fs0 : DisFlowSt) (r : RemoteRecord)
    (rs : Snapshot) (st1 : ProxyState) (hd : cfg.dryRun = false)
    (hu : (updateDnsRecordProxyStatus fs0.w putOk acct.name zid r.id false
      (dcOf cfg acct zid zname r)).2.1 = true) :
    disableAct cfg putOk acct zid zname fs0 r rs st1 =
      { fs0 with
        st := modifySnap (st2Of cfg acct zid zname st1 rs r) acct.name zid r.id
          fun s => { s with modified := true }
        w := (updateDnsRecordProxyStatus fs0.w putOk acct.name zid r.id false
          (dcOf cfg acct zid zname r)).1
        changes := fs0.changes ++
          [mkChangeRec "disable_proxy" acct zname zid r rs (dcOf cfg acct zid zname r)]
        total := fs0.total + 1
        puts := fs0.puts + (updateDnsRecordProxyStatus fs0.w putOk acct.name zid r.id false
          (dcOf cfg acct zid zname r)).2.2
        cnt := { fs0.cnt with records_modified := fs0.cnt.records_modified + 1 } } := by
  unfold disableAct
  simp [hd, hu]

theorem act_live_fail (cfg : DisCfg) (putOk : String → String → Bool)
    (acct : AccountCfg) (zid zname : String) (fs0 : DisFlowSt) (r : RemoteRecord)
    (rs : Snapshot) (st1 : ProxyState) (hd : cfg.dryRun = false)
    (hu : (updateDnsRecordProxyStatus fs0.w putOk acct.name zid r.id false
      (dcOf cfg acct zid zname r)).2.1 = false) :
    disableAct cfg putOk acct zid zname fs0 r rs st1 =
      { fs0 with
        st := st2Of cfg acct zid zname st1 rs r
        w := (updateDnsRecordProxyStatus fs0.w putOk acct.name zid r.id false
          (dcOf cfg acct zid zname r)).1
        puts := fs0.puts + (updateDnsRecordProxyStatus fs0.w putOk acct.name zid r.id false
          (dcOf cfg acct zid zname r)).2.2 } := by
  unfold disableAct
  simp [hd, hu]

/-! ### Update-call and step locality lemmas -/

theorem optGetD_true (o : Option Bool) (h : o.getD false = true) : o = some true := by
  cases o with
  | none => simp at h
  | some b => cases b <;> simp_all

theorem applyUpdate_changed (r : RemoteRecord) (c : Option String)
    (hp : r.proxied = some true) : (applyUpdate r false c).2 = true := by
  unfold applyUpdate
  rw [hp]
  cases c with
  | none => simp
  | some cv => by_cases hc : r.comment ≠ some cv <;> simp [hc]

theorem applyUpdate_proxied (r : RemoteRecord) (c : Option String)
    (hp : r.proxied = some true) : (applyUpdate r false c).1.proxied = some false := by
  unfold applyUpdate
  rw [hp]
  cases c with
  | none => simp
  | some cv => by_cases hc : r.comment ≠ some cv <;> simp [hc]

theorem update_success (w : Remote) (putOk : String → String → Bool) (a z rid : String)
    (c : Option String) (r : RemoteRecord) (hget : worldGetRecord w a z rid = some r)
    (hp : r.proxied = some true) (hok : putOk z rid = true) :
    updateDnsRecordProxyStatus w putOk a z rid false c =
      (worldUpdateRecord w a z rid (fun _ => (applyUpdate r false c).1), true, 1) := by
  unfold updateDnsRecordProxyStatus
  rw [hget]
  simp [applyUpdate_changed r c hp, hok]

theorem update_w_cases (w : Remote) (putOk : String → String → Bool) (a z rid : String)
    (p : Bool) (c : Option String) :
    (updateDnsRecordProxyStatus w putOk a z rid p c).1 = w ∨
    ∃ r', worldGetRecord w a z rid = some r' ∧
      (updateDnsRecordProxyStatus w putOk a z rid p c).1 =
        worldUpdateRecord w a z rid (fun _ => (applyUpdate r' p c).1) := by
  unfold updateDnsRecordProxyStatus
  cases hget : worldGetRecord w a z rid with
  | none => left; rfl
  | some r' =>
    dsimp only
    by_cases hch : (applyUpdate r' p c).2 = true
    · rw [if_pos hch]
      by_cases hok : putOk z rid = true
      · rw [if_pos hok]
        right
        exact ⟨r', rfl, rfl⟩
      · rw [Bool.not_eq_true] at hok
        rw [hok]
        left
        rfl
    · rw [Bool.not_eq_true] at hch
      rw [hch]
      left
      rfl

theorem worldGetRecord_wu_other (w : Remote) (a z rid : String)
    (f : RemoteRecord → RemoteRecord) (a' z' rid' : String) (h : a ≠ a' ∨ z ≠ z') :
    worldGetRecord (worldUpdateRecord w a z rid f) a' z' rid' =
      worldGetRecord w a' z' rid' := by
  rw [worldGetRecord_eq_find, worldGetRecord_eq_find, getDnsRecords_wu_ne w a z rid f a' z' h]

theorem worldGetRecord_wu_ne (w : Remote) (a z rid : String)
    (f : RemoteRecord → RemoteRecord) (rid' : String) (hne : rid' ≠ rid)
    (hf : ∀ x : RemoteRecord, x.id = rid → (f x).id = x.id) :
    worldGetRecord (worldUpdateRecord w a z rid f) a z rid' =
      worldGetRecord w a z rid' := by
  rw [worldGetRecord_eq_find, worldGetRecord_eq_find, getDnsRecords_wu_self, find?_map]
  have hcong : (fun x : RemoteRecord =>
      ((if x.id == rid then f x else x).id == rid')) =
      fun x : RemoteRecord => x.id == rid' := by
    funext x
    by_cases hx : (x.id == rid) = true
    · have hx' : x.id = rid := by simpa [beq_iff_eq] using hx
      simp [hx, hf x hx']
    · simp [hx]
  rw [hcong]
  cases hf2 : (getDnsRecords w a z).find? (fun x => x.id == rid') with
  | none => rfl
  | some x =>
    have hx := List.find?_some hf2
    have hx' : x.id = rid' := by simpa [beq_iff_eq] using hx
    have hgx : (if x.id == rid then f x else x) = x := by
      have hne2 : ¬(x.id == rid) = true := by
        simp only [beq_iff_eq, hx']
        exact hne
      simp [hne2]
    simp only [Option.map_some']
    rw [hgx]

theorem update_f_id (w : Remote) (a z rid : String) (p : Bool) (c : Option String)
    (r' : RemoteRecord) (hget : worldGetRecord w a z rid = some r') :
    ∀ x : RemoteRecord, x.id = rid → ((fun _ => (applyUpdate r' p c).1) x).id = x.id := by
  intro x hx
  have hid := worldGetRecord_id w a z rid r' hget
  rw [applyUpdate_id, hid, hx]

theorem update_w_getDns_ne (w : Remote) (putOk : String → String → Bool)
    (a z rid : String) (p : Bool) (c : Option String) (a' z' : String)
    (h : a ≠ a' ∨ z ≠ z') :
    getDnsRecords (updateDnsRecordProxyStatus w putOk a z rid p c).1 a' z' =
      getDnsRecords w a' z' := by
  rcases update_w_cases w putOk a z rid p c with heq | ⟨r', hget, heq⟩
  · rw [heq]
  · rw [heq]
    exact getDnsRecords_wu_ne w a z rid _ a' z' h

theorem update_w_shape (w : Remote) (putOk : String → String → Bool)
    (a z rid : String) (p : Bool) (c : Option String) (a' : String) :
    zonesShape (updateDnsRecordProxyStatus w putOk a z rid p c).1 a' =
      zonesShape w a' := by
  rcases update_w_cases w putOk a z rid p c with heq | ⟨r', hget, heq⟩
  · rw [heq]
  · rw [heq]
    exact zonesShape_wu w a z rid _ a'

theorem update_w_recIds (w : Remote) (putOk : String → String → Bool)
    (a z rid : String) (p : Bool) (c : Option String) (a' z' : String) :
    (getDnsRecords (updateDnsRecordProxyStatus w putOk a z rid p c).1 a' z').map (·.id) =
      (getDnsRecords w a' z').map (·.id) := by
  rcases update_w_cases w putOk a z rid p c with heq | ⟨r', hget, heq⟩
  · rw [heq]
  · rw [heq]
    exact recIds_wu w a z rid _ (update_f_id w a z rid p c r' hget) a' z'

theorem update_w_get_ne (w : Remote) (putOk : String → String → Bool)
    (a z rid : String) (p : Bool) (c : Option String) (rid' : String)
    (hne : rid' ≠ rid) :
    worldGetRecord (updateDnsRecordProxyStatus w putOk a z rid p c).1 a z rid' =
      worldGetRecord w a z rid' := by
  rcases update_w_cases w putOk a z rid p c with heq | ⟨r', hget, heq⟩
  · rw [heq]
  · rw [heq]
    exact worldGetRecord_wu_ne w a z rid _ rid' hne (update_f_id w a z rid p c r' hget)

/-! ### Step-level case analysis of the `w` and `st` components -/

theorem act_w_cases (cfg : DisCfg) (putOk : String → String → Bool) (acct : AccountCfg)
    (zid zname : String) (fs0 : DisFlowSt) (r : RemoteRecord) (rs : Snapshot)
    (st1 : ProxyState) :
    (disableAct cfg putOk acct zid zname fs0 r rs st1).w = fs0.w ∨
    (disableAct cfg putOk acct zid zname fs0 r rs st1).w =
      (updateDnsRecordProxyStatus fs0.w putOk acct.name zid r.id false
        (dcOf cfg acct zid zname r)).1 := by
  unfold disableAct
  by_cases hd : cfg.dryRun = true
  · rw [if_pos hd]
    left
    rfl
  · rw [Bool.not_eq_true] at hd
    rw [hd]
    simp only [Bool.false_eq_true, if_false]
    split
    · right; rfl
    · right; rfl

theorem step_w_cases (cfg : DisCfg) (putOk : String → String → Bool) (acct : AccountCfg)
    (zid zname : String) (fs : DisFlowSt) (r : RemoteRecord) :
    (disableRecordStep cfg putOk acct zid zname fs r).w = fs.w ∨
    (disableRecordStep cfg putOk acct zid zname fs r).w =
      (updateDnsRecordProxyStatus fs.w putOk acct.name zid r.id false
        (dcOf cfg acct zid zname r)).1 := by
  by_cases hp : passesFilters cfg r = true
  · rw [step_processed cfg putOk acct zid zname fs r hp]
    unfold disableProcess
    split
    · exact act_w_cases cfg putOk acct zid zname _ r _ _
    · left; rfl
  · rw [Bool.not_eq_true] at hp
    rw [step_skip cfg putOk acct zid zname fs r hp]
    left
    rfl

theorem step_st_cases (cfg : DisCfg) (putOk : String → String → Bool) (acct : AccountCfg)
    (zid zname : String) (fs : DisFlowSt) (r : RemoteRecord) :
    (disableRecordStep cfg putOk acct zid zname fs r).st = fs.st ∨
    (disableRecordStep cfg putOk acct zid zname fs r).st =
      (getOrCreateSnap fs.st acct.name zid r.id (snapSeed r)).2 ∨
    (disableRecordStep cfg putOk acct zid zname fs r).st =
      st2Of cfg acct zid zname (getOrCreateSnap fs.st acct.name zid r.id (snapSeed r)).2
        (getOrCreateSnap fs.st acct.name zid r.id (snapSeed r)).1 r ∨
    (disableRecordStep cfg putOk acct zid zname fs r).st =
      modifySnap (st2Of cfg acct zid zname
          (getOrCreateSnap fs.st acct.name zid r.id (snapSeed r)).2
          (getOrCreateSnap fs.st acct.name zid r.id (snapSeed r)).1 r)
        acct.name zid r.id (fun s => { s with modified := true }) := by
  by_cases hp : passesFilters cfg r = true
  · rw [step_processed cfg putOk acct zid zname fs r hp]
    unfold disableProcess disableAct
    repeat' split
    all_goals simp
  · rw [Bool.not_eq_true] at hp
    rw [step_skip cfg putOk acct zid zname fs r hp]
    left
    rfl

theorem lookupSnap_getOrCreate_ne (st : ProxyState) (a z rid : String) (seed : Snapshot)
    (a' z' r' : String) (h : a ≠ a' ∨ z ≠ z' ∨ rid ≠ r') :
    lookupSnap (getOrCreateSnap st a z rid seed).2 a' z' r' = lookupSnap st a' z' r' := by
  unfold getOrCreateSnap
  cases hl : lookupSnap st a z rid with
  | some s => rfl
  | none => exact lookupSnap_insertSnap_ne st a z rid a' z' r' seed h

theorem lookupSnap_st2Of_ne (cfg : DisCfg) (acct : AccountCfg) (zid zname : String)
    (st1 : ProxyState) (rs : Snapshot) (r : RemoteRecord) (a' z' r' : String)
    (h : acct.name ≠ a' ∨ zid ≠ z' ∨ r.id ≠ r') :
    lookupSnap (st2Of cfg acct zid zname st1 rs r) a' z' r' = lookupSnap st1 a' z' r' := by
  unfold st2Of
  split
  · rfl
  · split
    · rfl
    · exact lookupSnap_modifySnap_ne st1 acct.name zid r.id a' z' r' _ h

theorem step_st_ne (cfg : DisCfg) (putOk : String → String → Bool) (acct : AccountCfg)
    (zid zname : String) (fs : DisFlowSt) (r : RemoteRecord) (a' z' r' : String)
    (h : acct.name ≠ a' ∨ zid ≠ z' ∨ r.id ≠ r') :
    lookupSnap (disableRecordStep cfg putOk acct zid zname fs r).st a' z' r' =
      lookupSnap fs.st a' z' r' := by
  rcases step_st_cases cfg putOk acct zid zname fs r with h1 | h1 | h1 | h1 <;> rw [h1]
  · exact lookupSnap_getOrCreate_ne fs.st acct.name zid r.id (snapSeed r) a' z' r' h
  · rw [lookupSnap_st2Of_ne cfg acct zid zname _ _ r a' z' r' h]
    exact lookupSnap_getOrCreate_ne fs.st acct.name zid r.id (snapSeed r) a' z' r' h
  · rw [lookupSnap_modifySnap_ne _ acct.name zid r.id a' z' r' _ h,
      lookupSnap_st2Of_ne cfg acct zid zname _ _ r a' z' r' h]
    exact lookupSnap_getOrCreate_ne fs.st acct.name zid r.id (snapSeed r) a' z' r' h

theorem step_w_getDns_ne (cfg : DisCfg) (putOk : String → String → Bool)
    (acct : AccountCfg) (zid zname : String) (fs : DisFlowSt) (r : RemoteRecord)
    (a' z' : String) (h : acct.name ≠ a' ∨ zid ≠ z') :
    getDnsRecords (disableRecordStep cfg putOk acct zid zname fs r).w a' z' =
      getDnsRecords fs.w a' z' := by
  rcases step_w_cases cfg putOk acct zid zname fs r with h1 | h1 <;> rw [h1]
  exact update_w_getDns_ne fs.w putOk acct.name zid r.id false _ a' z' h

theorem step_w_shape (cfg : DisCfg) (putOk : String → String → Bool)
    (acct : AccountCfg) (zid zname : String) (fs : DisFlowSt) (r : RemoteRecord)
    (a' : String) :
    zonesShape (disableRecordStep cfg putOk acct zid zname fs r).w a' =
      zonesShape fs.w a' := by
  rcases step_w_cases cfg putOk acct zid zname fs r with h1 | h1 <;> rw [h1]
  exact update_w_shape fs.w putOk acct.name zid r.id false _ a'

theorem step_w_recIds (cfg : DisCfg) (putOk : String → String → Bool)
    (acct : AccountCfg) (zid zname : String) (fs : DisFlowSt) (r : RemoteRecord)
    (a' z' : String) :
    (getDnsRecords (disableRecordStep cfg putOk acct zid zname fs r).w a' z').map (·.id) =
      (getDnsRecords fs.w a' z').map (·.id) := by
  rcases step_w_cases cfg putOk acct zid zname fs r with h1 | h1 <;> rw [h1]
  exact update_w_recIds fs.w putOk acct.name zid r.id false _ a' z'

theorem step_w_get_ne (cfg : DisCfg) (putOk : String → String → Bool)
    (acct : AccountCfg) (zid zname : String) (fs : DisFlowSt) (r : RemoteRecord)
    (rid' : String) (hne : rid' ≠ r.id) :
    worldGetRecord (disableRecordStep cfg putOk acct zid zname fs r).w acct.name zid rid' =
      worldGetRecord fs.w acct.name zid rid' := by
  rcases step_w_cases cfg putOk acct zid zname fs r with h1 | h1 <;> rw [h1]
  exact update_w_get_ne fs.w putOk acct.name zid r.id false _ rid' hne

/-! ### Blocked-record predicate and state extension (C2) -/

/-- `st'` stores every snapshot `st` stores, unchanged (new keys may appear). -/
def stExtend (st st' : ProxyState) : Prop :=
  ∀ a z rid s, lookupSnap st a z rid = some s → lookupSnap st' a z rid = some s

theorem stExtend_refl (st : ProxyState) : stExtend st st := fun _ _ _ _ h => h

theorem stExtend_trans {st1 st2 st3 : ProxyState} (h1 : stExtend st1 st2)
    (h2 : stExtend st2 st3) : stExtend st1 st3 :=
  fun a z rid s h => h2 a z rid s (h1 a z rid s h)

theorem stExtend_ensureZone (st : ProxyState) (a z zn : String) :
    stExtend st (ensureZone st a z zn) := by
  intro a' z' rid s h
  rw [lookupSnap_ensureZone]
  exact h

theorem stExtend_getOrCreate (st : ProxyState) (a z rid : String) (seed : Snapshot) :
    stExtend st (getOrCreateSnap st a z rid seed).2 := by
  intro a' z' r' s h
  unfold getOrCreateSnap
  cases hl : lookupSnap st a z rid with
  | some s0 => exact h
  | none =>
    have hne : a ≠ a' ∨ z ≠ z' ∨ rid ≠ r' := by
      by_contra hc
      push_neg at hc
      obtain ⟨rfl, rfl, rfl⟩ := hc
      rw [hl] at h
      cases h
    rw [lookupSnap_insertSnap_ne st a z rid a' z' r' seed hne]
    exact h

/-- The record cannot be acted on by a disable run over this state: whenever
it is in scope and its remote proxy-flag is truthy, its stored snapshot is
already `modified`. -/
def blockedRec (cfg : DisCfg) (a z : String) (st : ProxyState) (r : RemoteRecord) :
    Prop :=
  passesFilters cfg r = true → r.proxied.getD false = true →
  ∃ s, lookupSnap st a z r.id = some s ∧ s.modified = true

theorem blockedRec_extend (cfg : DisCfg) (a z : String) {st st' : ProxyState}
    (r : RemoteRecord) (hext : stExtend st st')
    (hb : blockedRec cfg a z st r) : blockedRec cfg a z st' r := by
  intro hpass hprox
  obtain ⟨s, hs, hm⟩ := hb hpass hprox
  exact ⟨s, hext a z r.id s hs, hm⟩

/-- Every record of the zone is blocked. -/
def blockedZone (cfg : DisCfg) (st : ProxyState) (w : Remote) (a z : String) : Prop :=
  ∀ r ∈ getDnsRecords w a z, blockedRec cfg a z st r

theorem mem_of_worldGet (w : Remote) (a z rid : String) (r : RemoteRecord)
    (h : worldGetRecord w a z rid = some r) : r ∈ getDnsRecords w a z := by
  rw [worldGetRecord_eq_find] at h
  exact List.mem_of_find?_eq_some h

theorem mem_id_unique (l : List RemoteRecord) (x y : RemoteRecord)
    (hx : x ∈ l) (hy : y ∈ l) (hid : x.id = y.id)
    (hnd : (l.map (·.id)).Nodup) : x = y :=
  List.inj_on_of_nodup_map hnd hx hy hid

theorem step_mem_ne (cfg : DisCfg) (putOk : String → String → Bool)
    (acct : AccountCfg) (zid zname : String) (fs : DisFlowSt) (r : RemoteRecord)
    (r' : RemoteRecord) (hrid : r'.id ≠ r.id)
    (hmem' : r' ∈ getDnsRecords
      (disableRecordStep cfg putOk acct zid zname fs r).w acct.name zid) :
    r' ∈ getDnsRecords fs.w acct.name zid := by
  rcases step_w_cases cfg putOk acct zid zname fs r with h1 | h1
  · rw [h1] at hmem'; exact hmem'
  · rw [h1] at hmem'
    rcases update_w_cases fs.w putOk acct.name zid r.id false
        (dcOf cfg acct zid zname r) with h2 | ⟨rr, hget, h2⟩
    · rw [h2] at hmem'; exact hmem'
    · rw [h2, getDnsRecords_wu_self] at hmem'
      obtain ⟨x, hx, hgx⟩ := List.mem_map.mp hmem'
      by_cases hxid : (x.id == r.id) = true
      · exfalso
        apply hrid
        have hr'id : r'.id = (applyUpdate rr false (dcOf cfg acct zid zname r)).1.id := by
          rw [← hgx]
          simp [hxid]
        rw [hr'id, applyUpdate_id, worldGetRecord_id fs.w acct.name zid r.id rr hget]
      · have hxx : x = r' := by
          rw [← hgx]
          simp [hxid]
        rw [← hxx]
        exact hx

/-! ### Composite equations for one record step -/

theorem step_gate_false_eq (cfg : DisCfg) (putOk : String → String → Bool)
    (acct : AccountCfg) (zid zname : String) (fs : DisFlowSt) (r : RemoteRecord)
    (hp : passesFilters cfg r = true)
    (hgate : (r.proxied.getD false &&
      !(getOrCreateSnap fs.st acct.name zid r.id (snapSeed r)).1.modified) = false) :
    disableRecordStep cfg putOk acct zid zname fs r =
      { fs with
        st := (getOrCreateSnap fs.st acct.name zid r.id (snapSeed r)).2
        cnt := { fs.cnt with records_processed := fs.cnt.records_processed + 1 } } := by
  rw [step_processed cfg putOk acct zid zname fs r hp]
  unfold disableProcess
  dsimp only
  rw [hgate]
  simp

theorem step_dry_eq (cfg : DisCfg) (putOk : String → String → Bool)
    (acct : AccountCfg) (zid zname : String) (fs : DisFlowSt) (r : RemoteRecord)
    (hp : passesFilters cfg r = true)
    (hgate : (r.proxied.getD false &&
      !(getOrCreateSnap fs.st acct.name zid r.id (snapSeed r)).1.modified) = true)
    (hd : cfg.dryRun = true) :
    disableRecordStep cfg putOk acct zid zname fs r =
      { fs with
        st := st2Of cfg acct zid zname
          (getOrCreateSnap fs.st acct.name zid r.id (snapSeed r)).2
          (getOrCreateSnap fs.st acct.name zid r.id (snapSeed r)).1 r
        changes := fs.changes ++
          [mkChangeRec "would_disable_proxy" acct zname zid r
            (getOrCreateSnap fs.st acct.name zid r.id (snapSeed r)).1
            (dcOf cfg acct zid zname r)]
        total := fs.total + 1
        cnt := { fs.cnt with
          records_processed := fs.cnt.records_processed + 1
          records_modified := fs.cnt.records_modified + 1 } } := by
  rw [step_processed cfg putOk acct zid zname fs r hp]
  unfold disableProcess disableAct
  dsimp only
  rw [hgate, hd]
  simp

theorem step_live_eq (cfg : DisCfg) (putOk : String → String → Bool)
    (acct : AccountCfg) (zid zname : String) (fs : DisFlowSt) (r : RemoteRecord)
    (hp : passesFilters cfg r = true)
    (hgate : (r.proxied.getD false &&
      !(getOrCreateSnap fs.st acct.name zid r.id (snapSeed r)).1.modified) = true)
    (hd : cfg.dryRun = false)
    (hu : (updateDnsRecordProxyStatus fs.w putOk acct.name zid r.id false
      (dcOf cfg acct zid zname r)).2.1 = true) :
    disableRecordStep cfg putOk acct zid zname fs r =
      { fs with
        st := modifySnap (st2Of cfg acct zid zname
            (getOrCreateSnap fs.st acct.name zid r.id (snapSeed r)).2
            (getOrCreateSnap fs.st acct.name zid r.id (snapSeed r)).1 r)
          acct.name zid r.id (fun s => { s with modified := true })
        w := (updateDnsRecordProxyStatus fs.w putOk acct.name zid r.id false
          (dcOf cfg acct zid zname r)).1
        changes := fs.changes ++
          [mkChangeRec "disable_proxy" acct zname zid r
            (getOrCreateSnap fs.st acct.name zid r.id (snapSeed r)).1
            (dcOf cfg acct zid zname r)]
        total := fs.total + 1
        puts := fs.puts + (updateDnsRecordProxyStatus fs.w putOk acct.name zid r.id false
          (dcOf cfg acct zid zname r)).2.2
        cnt := { fs.cnt with
          records_processed := fs.cnt.records_processed + 1
          records_modified := fs.cnt.records_modified + 1 } } := by
  rw [step_processed cfg putOk acct zid zname fs r hp]
  unfold disableProcess disableAct
  dsimp only
  rw [hgate, hd, hu]
  simp

theorem step_live_fail_eq (cfg : DisCfg) (putOk : String → String → Bool)
    (acct : AccountCfg) (zid zname : String) (fs : DisFlowSt) (r : RemoteRecord)
    (hp : passesFilters cfg r = true)
    (hgate : (r.proxied.getD false &&
      !(getOrCreateSnap fs.st acct.name zid r.id (snapSeed r)).1.modified) = true)
    (hd : cfg.dryRun = false)
    (hu : (updateDnsRecordProxyStatus fs.w putOk acct.name zid r.id false
      (dcOf cfg acct zid zname r)).2.1 = false) :
    disableRecordStep cfg putOk acct zid zname fs r =
      { fs with
        st := st2Of cfg acct zid zname
          (getOrCreateSnap fs.st acct.name zid r.id (snapSeed r)).2
          (getOrCreateSnap fs.st acct.name zid r.id (snapSeed r)).1 r
        w := (updateDnsRecordProxyStatus fs.w putOk acct.name zid r.id false
          (dcOf cfg acct zid zname r)).1
        puts := fs.puts + (updateDnsRecordProxyStatus fs.w putOk acct.name zid r.id false
          (dcOf cfg acct zid zname r)).2.2
        cnt := { fs.cnt with
          records_processed := fs.cnt.records_processed + 1 } } := by
  rw [step_processed cfg putOk acct zid zname fs r hp]
  unfold disableProcess disableAct
  dsimp only
  rw [hgate, hd, hu]
  simp

/-! ### C2: a live disable run blocks every record it acted on -/

theorem records_fold_blocked (cfg : DisCfg) (putOk : String → String → Bool)
    (acct : AccountCfg) (zid zname : String)
    (hdry : cfg.dryRun = false) (hput : ∀ z r, putOk z r = true) :
    ∀ (L : List RemoteRecord) (fs : DisFlowSt),
      (∀ r ∈ L, worldGetRecord fs.w acct.name zid r.id = some r) →
      (L.map (·.id)).Nodup →
      ((getDnsRecords fs.w acct.name zid).map (·.id)).Nodup →
      (∀ r' ∈ getDnsRecords fs.w acct.name zid,
        (∀ rr ∈ L, rr.id ≠ r'.id) → blockedRec cfg acct.name zid fs.st r') →
      ∀ r' ∈ getDnsRecords
          (List.foldl (disableRecordStep cfg putOk acct zid zname) fs L).w acct.name zid,
        blockedRec cfg acct.name zid
          (List.foldl (disableRecordStep cfg putOk acct zid zname) fs L).st r' := by
  intro L
  induction L with
  | nil =>
    intro fs h1 h2 h3 h4 r' hmem
    exact h4 r' hmem (fun rr hrr => absurd hrr (List.not_mem_nil rr))
  | cons r L' ih =>
    intro fs h1 h2 h3 h4
    simp only [List.foldl_cons]
    simp only [List.map_cons, List.nodup_cons] at h2
    have hget : worldGetRecord fs.w acct.name zid r.id = some r :=
      h1 r (List.mem_cons_self r L')
    have hrmem : r ∈ getDnsRecords fs.w acct.name zid :=
      mem_of_worldGet fs.w acct.name zid r.id r hget
    apply ih (disableRecordStep cfg putOk acct zid zname fs r)
    · intro rr hrr
      have hne : rr.id ≠ r.id := by
        intro he
        exact h2.1 (he ▸ List.mem_map_of_mem (·.id) hrr)
      rw [step_w_get_ne cfg putOk acct zid zname fs r rr.id hne]
      exact h1 rr (List.mem_cons_of_mem r hrr)
    · exact h2.2
    · rw [step_w_recIds]
      exact h3
    · intro r' hmem' hcond
      by_cases hrid : r'.id = r.id
      · by_cases hp : passesFilters cfg r = true
        · by_cases hprox : r.proxied.getD false = true
          · by_cases hmod :
              (getOrCreateSnap fs.st acct.name zid r.id (snapSeed r)).1.modified = true
            · -- already modified: world unchanged, stored snapshot answers
              have hgate : (r.proxied.getD false &&
                  !(getOrCreateSnap fs.st acct.name zid r.id (snapSeed r)).1.modified) =
                  false := by
                rw [hprox, hmod]
                rfl
              have hstep := step_gate_false_eq cfg putOk acct zid zname fs r hp hgate
              rw [hstep] at hmem' ⊢
              have hr'r : r' = r :=
                mem_id_unique (getDnsRecords fs.w acct.name zid) r' r hmem' hrmem hrid h3
              intro hpass hprox'
              cases hl : lookupSnap fs.st acct.name zid r.id with
              | none =>
                exfalso
                unfold getOrCreateSnap at hmod
                rw [hl] at hmod
                simp [snapSeed] at hmod
              | some s0 =>
                have hgc : getOrCreateSnap fs.st acct.name zid r.id (snapSeed r) =
                    (s0, fs.st) := by
                  unfold getOrCreateSnap
                  rw [hl]
                refine ⟨s0, ?_, ?_⟩
                · dsimp only
                  rw [hgc]
                  dsimp only
                  rw [hr'r]
                  exact hl
                · rw [hgc] at hmod
                  exact hmod
            · -- acted on: the record's new image is unproxied
              rw [Bool.not_eq_true] at hmod
              have hgate : (r.proxied.getD false &&
                  !(getOrCreateSnap fs.st acct.name zid r.id (snapSeed r)).1.modified) =
                  true := by
                rw [hprox, hmod]
                rfl
              have hup := update_success fs.w putOk acct.name zid r.id
                (dcOf cfg acct zid zname r) r hget (optGetD_true _ hprox) (hput zid r.id)
              have hstep := step_live_eq cfg putOk acct zid zname fs r hp hgate hdry
                (by rw [hup])
              have hw : (disableRecordStep cfg putOk acct zid zname fs r).w =
                  worldUpdateRecord fs.w acct.name zid r.id
                    (fun _ => (applyUpdate r false (dcOf cfg acct zid zname r)).1) := by
                rw [hstep]
                dsimp only
                rw [hup]
              rw [hw, getDnsRecords_wu_self] at hmem'
              obtain ⟨x, hx, hgx⟩ := List.mem_map.mp hmem'
              by_cases hxid : (x.id == r.id) = true
              · have hr' : r' = (applyUpdate r false (dcOf cfg acct zid zname r)).1 := by
                  have hx' : x.id = r.id := by simpa [beq_iff_eq] using hxid
                  have hxr : x = r :=
                    mem_id_unique (getDnsRecords fs.w acct.name zid) x r hx hrmem hx' h3
                  rw [← hgx, hxr]
                  simp
                intro hpass hprox'
                exfalso
                rw [hr', applyUpdate_proxied r _ (optGetD_true _ hprox)] at hprox'
                simp at hprox'
              · exfalso
                have hxx : x = r' := by
                  rw [← hgx]
                  simp [hxid]
                apply hxid
                rw [hxx]
                simp [beq_iff_eq, hrid]
          · -- not proxied: world unchanged, vacuous
            rw [Bool.not_eq_true] at hprox
            have hgate : (r.proxied.getD false &&
                !(getOrCreateSnap fs.st acct.name zid r.id (snapSeed r)).1.modified) =
                false := by
              rw [hprox]
              rfl
            have hstep := step_gate_false_eq cfg putOk acct zid zname fs r hp hgate
            rw [hstep] at hmem'
            have hr'r : r' = r :=
              mem_id_unique (getDnsRecords fs.w acct.name zid) r' r hmem' hrmem hrid h3
            intro hpass hprox'
            exfalso
            rw [hr'r, hprox] at hprox'
            cases hprox'
        · -- filtered out: identity step, vacuous
          rw [Bool.not_eq_true] at hp
          have hstep := step_skip cfg putOk acct zid zname fs r hp
          rw [hstep] at hmem' ⊢
          have hr'r : r' = r :=
            mem_id_unique (getDnsRecords fs.w acct.name zid) r' r hmem' hrmem hrid h3
          intro hpass hprox'
          exfalso
          rw [hr'r, hp] at hpass
          cases hpass
      · -- a different record: blocked before, untouched now
        have hmem0 : r' ∈ getDnsRecords fs.w acct.name zid :=
          step_mem_ne cfg putOk acct zid zname fs r r' hrid hmem'
        have hb := h4 r' hmem0 ?_
        · intro hpass hprox'
          obtain ⟨s, hs, hm⟩ := hb hpass hprox'
          refine ⟨s, ?_, hm⟩
          rw [step_st_ne cfg putOk acct zid zname fs r acct.name zid r'.id
            (Or.inr (Or.inr (fun he => hrid he.symm)))]
          exact hs
        · intro rr hrr
          rcases List.mem_cons.mp hrr with rfl | hrr'
          · exact fun he => hrid he.symm
          · exact hcond rr hrr'

theorem foldl_inv {σ α : Type} (P : σ → Prop) (step : σ → α → σ)
    (h : ∀ s x, P s → P (step s x)) :
    ∀ (l : List α) (s : σ), P s → P (List.foldl step s l) := by
  intro l
  induction l with
  | nil => intro s hs; exact hs
  | cons x xs ih => intro s hs; exact ih (step s x) (h s x hs)

/-- The `(id, name)` pairs of the zones the run will process for an account,
after the zone allow-list. -/
def selShape (cfg : DisCfg) (w : Remote) (a : String) : List (String × String) :=
  (selectZones cfg.selZones (zonesOf w a)).map fun z => (z.id, z.name)

/-- The zone allow-list test expressed on an `(id, name)` pair. -/
def selPred (sel : Option (List String)) (p : String × String) : Bool :=
  match sel with
  | some (s :: ss) => (s :: ss).contains p.2 || (s :: ss).contains p.1
  | _ => true

theorem selectZones_shape (sel : Option (List String)) (zs : List RemoteZone) :
    (selectZones sel zs).map (fun z => (z.id, z.name)) =
      (zs.map fun z => (z.id, z.name)).filter (selPred sel) := by
  unfold selectZones selPred
  cases sel with
  | none => simp
  | some l =>
    cases l with
    | nil => simp
    | cons s ss =>
      dsimp only
      induction zs with
      | nil => rfl
      | cons z zt ih =>
        simp only [List.filter_cons, List.map_cons]
        dsimp only
        by_cases hz : ((s :: ss).contains z.name || (s :: ss).contains z.id) = true
        · rw [if_pos hz, if_pos hz, List.map_cons, ih]
        · rw [Bool.not_eq_true] at hz
          rw [if_neg (by rw [hz]; simp), if_neg (by rw [hz]; simp), ih]

theorem selShape_congr (cfg : DisCfg) (w w' : Remote) (a : String)
    (h : zonesShape w' a = zonesShape w a) :
    selShape cfg w' a = selShape cfg w a := by
  unfold selShape
  rw [selectZones_shape, selectZones_shape]
  unfold zonesShape at h
  rw [h]

theorem selShape_fst_nodup (cfg : DisCfg) (w : Remote) (a : String)
    (h : ((zonesOf w a).map (·.id)).Nodup) :
    ((selShape cfg w a).map Prod.fst).Nodup := by
  unfold selShape
  have hsub : (selectZones cfg.selZones (zonesOf w a)).Sublist (zonesOf w a) := by
    unfold selectZones
    cases cfg.selZones with
    | none => exact List.Sublist.refl _
    | some l =>
      cases l with
      | nil => exact List.Sublist.refl _
      | cons s ss => exact List.filter_sublist _
  have : ((selectZones cfg.selZones (zonesOf w a)).map (·.id)).Sublist
      ((zonesOf w a).map (·.id)) := List.Sublist.map _ hsub
  have hnd := List.Nodup.sublist this h
  have hmm : ((selectZones cfg.selZones (zonesOf w a)).map (fun z => (z.id, z.name))).map
      Prod.fst = (selectZones cfg.selZones (zonesOf w a)).map (·.id) := by
    rw [List.map_map]
    rfl
  rw [hmm]
  exact hnd

/-- The account-level zone fold only looks at each zone's id and name, so it
can be rewritten as a fold over the `(id, name)` pairs. -/
theorem zones_foldl_shape (cfg : DisCfg) (putOk : String → String → Bool)
    (acct : AccountCfg) :
    ∀ (zs : List RemoteZone) (fs : DisFlowSt),
      zs.foldl (fun fs z => disableZone cfg putOk acct z.id z.name fs) fs =
        (zs.map fun z => (z.id, z.name)).foldl
          (fun fs p => disableZone cfg putOk acct p.1 p.2 fs) fs := by
  intro zs
  induction zs with
  | nil => intro fs; rfl
  | cons z zt ih => intro fs; simp only [List.map_cons, List.foldl_cons]; exact ih _

theorem blockedZone_congr (cfg : DisCfg) (st st' : ProxyState) (w w' : Remote)
    (a z : String)
    (hw : getDnsRecords w' a z = getDnsRecords w a z)
    (hst : ∀ rid, lookupSnap st' a z rid = lookupSnap st a z rid)
    (hb : blockedZone cfg st w a z) : blockedZone cfg st' w' a z := by
  intro r hr hpass hprox
  rw [hw] at hr
  obtain ⟨s, hs, hm⟩ := hb r hr hpass hprox
  refine ⟨s, ?_, hm⟩
  rw [hst r.id]
  exact hs

theorem disableZone_blocked (cfg : DisCfg) (putOk : String → String → Bool)
    (acct : AccountCfg) (zid zname : String) (fs : DisFlowSt)
    (hdry : cfg.dryRun = false) (hput : ∀ z r, putOk z r = true)
    (hnd : ((getDnsRecords fs.w acct.name zid).map (·.id)).Nodup) :
    blockedZone cfg (disableZone cfg putOk acct zid zname fs).st
      (disableZone cfg putOk acct zid zname fs).w acct.name zid := by
  unfold disableZone blockedZone
  intro r hr
  refine records_fold_blocked cfg putOk acct zid zname hdry hput
    (getDnsRecords fs.w acct.name zid)
    { fs with
      st := ensureZone fs.st acct.name zid zname
      cnt := { fs.cnt with zones_processed := fs.cnt.zones_processed + 1 } }
    ?_ hnd hnd ?_ r hr
  · intro rr hrr
    rw [worldGetRecord_eq_find]
    exact find?_of_mem_nodup (getDnsRecords fs.w acct.name zid) rr hrr hnd
  · intro r' hm hc
    exact absurd rfl (hc r' hm)

theorem disableZone_locality (cfg : DisCfg) (putOk : String → String → Bool)
    (acct : AccountCfg) (zid zname : String) (fs : DisFlowSt) (a' z' : String)
    (h : acct.name ≠ a' ∨ zid ≠ z') :
    getDnsRecords (disableZone cfg putOk acct zid zname fs).w a' z' =
      getDnsRecords fs.w a' z' ∧
    ∀ rid, lookupSnap (disableZone cfg putOk acct zid zname fs).st a' z' rid =
      lookupSnap fs.st a' z' rid := by
  unfold disableZone
  have := foldl_inv
    (fun fs2 => getDnsRecords fs2.w a' z' = getDnsRecords fs.w a' z' ∧
      ∀ rid, lookupSnap fs2.st a' z' rid = lookupSnap fs.st a' z' rid)
    (disableRecordStep cfg putOk acct zid zname)
    (fun s x hs => by
      constructor
      · rw [step_w_getDns_ne cfg putOk acct zid zname s x a' z' h]
        exact hs.1
      · intro rid
        rw [step_st_ne cfg putOk acct zid zname s x a' z' rid ?_]
        · exact hs.2 rid
        · rcases h with h | h
          · exact Or.inl h
          · exact Or.inr (Or.inl h))
    (getDnsRecords fs.w acct.name zid)
    { fs with
      st := ensureZone fs.st acct.name zid zname
      cnt := { fs.cnt with zones_processed := fs.cnt.zones_processed + 1 } }
    ⟨rfl, fun rid => lookupSnap_ensureZone fs.st acct.name zid zname a' z' rid⟩
  exact this

theorem disableZone_shape (cfg : DisCfg) (putOk : String → String → Bool)
    (acct : AccountCfg) (zid zname : String) (fs : DisFlowSt) (a' : String) :
    zonesShape (disableZone cfg putOk acct zid zname fs).w a' = zonesShape fs.w a' := by
  unfold disableZone
  exact foldl_inv (fun fs2 => zonesShape fs2.w a' = zonesShape fs.w a')
    (disableRecordStep cfg putOk acct zid zname)
    (fun s x hs => by
      dsimp only at hs ⊢
      rw [step_w_shape cfg putOk acct zid zname s x a']
      exact hs)
    (getDnsRecords fs.w acct.name zid)
    { fs with
      st := ensureZone fs.st acct.name zid zname
      cnt := { fs.cnt with zones_processed := fs.cnt.zones_processed + 1 } } rfl

theorem disableZone_recIds (cfg : DisCfg) (putOk : String → String → Bool)
    (acct : AccountCfg) (zid zname : String) (fs : DisFlowSt) (a' z' : String) :
    (getDnsRecords (disableZone cfg putOk acct zid zname fs).w a' z').map (·.id) =
      (getDnsRecords fs.w a' z').map (·.id) := by
  unfold disableZone
  exact foldl_inv
    (fun fs2 => (getDnsRecords fs2.w a' z').map (·.id) =
      (getDnsRecords fs.w a' z').map (·.id))
    (disableRecordStep cfg putOk acct zid zname)
    (fun s x hs => by
      dsimp only at hs ⊢
      rw [step_w_recIds cfg putOk acct zid zname s x a' z']
      exact hs)
    (getDnsRecords fs.w acct.name zid)
    { fs with
      st := ensureZone fs.st acct.name zid zname
      cnt := { fs.cnt with zones_processed := fs.cnt.zones_processed + 1 } } rfl

theorem zones_fold_blocked (cfg : DisCfg) (putOk : String → String → Bool)
    (acct : AccountCfg) (hdry : cfg.dryRun = false) (hput : ∀ z r, putOk z r = true) :
    ∀ (ps : List (String × String)) (fs : DisFlowSt),
      (ps.map Prod.fst).Nodup →
      (∀ a' z', ((getDnsRecords fs.w a' z').map (·.id)).Nodup) →
      (∀ p ∈ ps, blockedZone cfg
        (ps.foldl (fun fs2 p2 => disableZone cfg putOk acct p2.1 p2.2 fs2) fs).st
        (ps.foldl (fun fs2 p2 => disableZone cfg putOk acct p2.1 p2.2 fs2) fs).w
        acct.name p.1) ∧
      (∀ a' z', (a' ≠ acct.name ∨ z' ∉ ps.map Prod.fst) →
        getDnsRecords
          (ps.foldl (fun fs2 p2 => disableZone cfg putOk acct p2.1 p2.2 fs2) fs).w a' z' =
          getDnsRecords fs.w a' z' ∧
        ∀ rid, lookupSnap
          (ps.foldl (fun fs2 p2 => disableZone cfg putOk acct p2.1 p2.2 fs2) fs).st a' z' rid =
          lookupSnap fs.st a' z' rid) ∧
      (∀ a', zonesShape
        (ps.foldl (fun fs2 p2 => disableZone cfg putOk acct p2.1 p2.2 fs2) fs).w a' =
        zonesShape fs.w a') ∧
      (∀ a' z', (getDnsRecords
        (ps.foldl (fun fs2 p2 => disableZone cfg putOk acct p2.1 p2.2 fs2) fs).w a' z').map (·.id) =
        (getDnsRecords fs.w a' z').map (·.id)) := by
  intro ps
  induction ps with
  | nil =>
    intro fs hnd hrec
    exact ⟨fun p hp => absurd hp (List.not_mem_nil p),
      fun a' z' h => ⟨rfl, fun rid => rfl⟩, fun a' => rfl, fun a' z' => rfl⟩
  | cons p pt ih =>
    intro fs hnd hrec
    simp only [List.foldl_cons, List.map_cons, List.nodup_cons] at hnd ⊢
    have hz1 := disableZone_blocked cfg putOk acct p.1 p.2 fs hdry hput
      (hrec acct.name p.1)
    have hrec1 : ∀ a' z',
        ((getDnsRecords (disableZone cfg putOk acct p.1 p.2 fs).w a' z').map (·.id)).Nodup := by
      intro a' z'
      rw [disableZone_recIds]
      exact hrec a' z'
    obtain ⟨ihb, ihloc, ihshape, ihrec⟩ := ih (disableZone cfg putOk acct p.1 p.2 fs)
      hnd.2 hrec1
    refine ⟨?_, ?_, ?_, ?_⟩
    · intro q hq
      rcases List.mem_cons.mp hq with rfl | hq'
      · -- the head zone stays blocked through the tail
        have hloc := ihloc acct.name q.1 (Or.inr ?_)
        · exact blockedZone_congr cfg _ _ _ _ acct.name q.1 hloc.1 hloc.2 hz1
        · exact hnd.1
      · exact ihb q hq'
    · intro a' z' h
      have h2 : a' ≠ acct.name ∨ z' ∉ pt.map Prod.fst := by
        rcases h with h | h
        · exact Or.inl h
        · exact Or.inr (fun hmem => h (List.mem_cons.mpr (Or.inr hmem)))
      have hz' : a' ≠ acct.name ∨ p.1 ≠ z' := by
        rcases h with h | h
        · exact Or.inl h
        · exact Or.inr (fun he => h (List.mem_cons.mpr (Or.inl he.symm)))
      obtain ⟨hw2, hst2⟩ := ihloc a' z' h2
      obtain ⟨hw1, hst1⟩ := disableZone_locality cfg putOk acct p.1 p.2 fs a' z'
        (by rcases hz' with h | h
            · exact Or.inl (fun he => h he.symm)
            · exact Or.inr h)
      exact ⟨hw2.trans hw1, fun rid => (hst2 rid).trans (hst1 rid)⟩
    · intro a'
      rw [ihshape a', disableZone_shape]
    · intro a' z'
      rw [ihrec a' z', disableZone_recIds]

theorem zoneIds_eq_shape (w : Remote) (a : String) :
    (zonesOf w a).map (·.id) = (zonesShape w a).map Prod.fst := by
  unfold zonesShape
  rw [List.map_map]
  rfl

theorem disableAccount_post (cfg : DisCfg) (putOk : String → String → Bool)
    (rs : DisRunSt) (acct : AccountCfg)
    (hdry : cfg.dryRun = false) (hput : ∀ z r, putOk z r = true)
    (hz : ((zonesOf rs.w acct.name).map (·.id)).Nodup)
    (hrec : ∀ a z, ((getDnsRecords rs.w a z).map (·.id)).Nodup) :
    (skipAccount cfg.selAccounts acct.name = false →
      ∀ p ∈ selShape cfg rs.w acct.name,
        blockedZone cfg (disableAccount cfg putOk rs acct).st
          (disableAccount cfg putOk rs acct).w acct.name p.1) ∧
    (∀ a' z', a' ≠ acct.name →
      getDnsRecords (disableAccount cfg putOk rs acct).w a' z' =
        getDnsRecords rs.w a' z' ∧
      ∀ rid, lookupSnap (disableAccount cfg putOk rs acct).st a' z' rid =
        lookupSnap rs.st a' z' rid) ∧
    (∀ a', zonesShape (disableAccount cfg putOk rs acct).w a' = zonesShape rs.w a') ∧
    (∀ a' z', (getDnsRecords (disableAccount cfg putOk rs acct).w a' z').map (·.id) =
      (getDnsRecords rs.w a' z').map (·.id)) := by
  unfold disableAccount
  by_cases hskip : skipAccount cfg.selAccounts acct.name = true
  · rw [if_pos hskip]
    refine ⟨fun hf => absurd hskip (by rw [hf]; simp), ?_, ?_, ?_⟩
    · exact fun a' z' h => ⟨rfl, fun rid => rfl⟩
    · exact fun a' => rfl
    · exact fun a' z' => rfl
  · rw [Bool.not_eq_true] at hskip
    rw [if_neg (by rw [hskip]; simp)]
    rw [zones_foldl_shape cfg putOk acct (selectZones cfg.selZones (zonesOf rs.w acct.name))]
    obtain ⟨hb, hloc, hshape, hrec'⟩ := zones_fold_blocked cfg putOk acct hdry hput
      (selShape cfg rs.w acct.name)
      ⟨rs.st, rs.w, rs.changes, rs.total, rs.puts, ⟨0, 0, 0, 0⟩⟩
      (selShape_fst_nodup cfg rs.w acct.name hz)
      hrec
    refine ⟨fun hs2 p hp => hb p hp, ?_, ?_, ?_⟩
    · intro a' z' h
      exact hloc a' z' (Or.inl h)
    · intro a'
      exact hshape a'
    · intro a' z'
      exact hrec' a' z'

theorem accounts_fold_post (cfg : DisCfg) (putOk : String → String → Bool)
    (hdry : cfg.dryRun = false) (hput : ∀ z r, putOk z r = true) :
    ∀ (as : List AccountCfg) (rs : DisRunSt),
      (as.map (·.name)).Nodup →
      (∀ a, ((zonesOf rs.w a).map (·.id)).Nodup) →
      (∀ a z, ((getDnsRecords rs.w a z).map (·.id)).Nodup) →
      (∀ acct ∈ as, skipAccount cfg.selAccounts acct.name = false →
        ∀ p ∈ selShape cfg (as.foldl (disableAccount cfg putOk) rs).w acct.name,
          blockedZone cfg (as.foldl (disableAccount cfg putOk) rs).st
            (as.foldl (disableAccount cfg putOk) rs).w acct.name p.1) ∧
      (∀ a', a' ∉ as.map (·.name) → ∀ z',
        getDnsRecords (as.foldl (disableAccount cfg putOk) rs).w a' z' =
          getDnsRecords rs.w a' z' ∧
        ∀ rid, lookupSnap (as.foldl (disableAccount cfg putOk) rs).st a' z' rid =
          lookupSnap rs.st a' z' rid) ∧
      (∀ a', zonesShape (as.foldl (disableAccount cfg putOk) rs).w a' =
        zonesShape rs.w a') := by
  intro as
  induction as with
  | nil =>
    intro rs hnd hz hrec
    exact ⟨fun acct h => absurd h (List.not_mem_nil acct),
      fun a' h z' => ⟨rfl, fun rid => rfl⟩, fun a' => rfl⟩
  | cons acct as' ih =>
    intro rs hnd hz hrec
    simp only [List.foldl_cons, List.map_cons, List.nodup_cons] at hnd ⊢
    obtain ⟨hb1, hloc1, hshape1, hrec1⟩ := disableAccount_post cfg putOk rs acct
      hdry hput (hz acct.name) hrec
    have hz1 : ∀ a, ((zonesOf (disableAccount cfg putOk rs acct).w a).map (·.id)).Nodup := by
      intro a
      rw [zoneIds_eq_shape, hshape1 a, ← zoneIds_eq_shape]
      exact hz a
    have hrec1' : ∀ a z,
        ((getDnsRecords (disableAccount cfg putOk rs acct).w a z).map (·.id)).Nodup := by
      intro a z
      rw [hrec1 a z]
      exact hrec a z
    obtain ⟨ihb, ihloc, ihshape⟩ := ih (disableAccount cfg putOk rs acct) hnd.2 hz1 hrec1'
    refine ⟨?_, ?_, ?_⟩
    · intro q hq hskip p hp
      rcases List.mem_cons.mp hq with rfl | hq'
      · -- head account: established by its own processing, preserved by the tail
        have hname : q.name ∉ as'.map (·.name) := hnd.1
        have hsel : selShape cfg (as'.foldl (disableAccount cfg putOk)
            (disableAccount cfg putOk rs q)).w q.name = selShape cfg rs.w q.name := by
          refine (selShape_congr cfg _ _ q.name ?_).trans
            (selShape_congr cfg _ _ q.name (hshape1 q.name))
          exact ihshape q.name
        rw [hsel] at hp
        have hbz := hb1 hskip p hp
        obtain ⟨hw2, hst2⟩ := ihloc q.name hname p.1
        exact blockedZone_congr cfg _ _ _ _ q.name p.1 hw2 hst2 hbz
      · exact ihb q hq' hskip p hp
    · intro a' ha' z'
      have ha'2 : a' ∉ as'.map (·.name) := fun h => ha' (List.mem_cons.mpr (Or.inr h))
      have ha'1 : a' ≠ acct.name := fun h => ha' (List.mem_cons.mpr (Or.inl h))
      obtain ⟨hw2, hst2⟩ := ihloc a' ha'2 z'
      obtain ⟨hw1, hst1⟩ := hloc1 a' z' ha'1
      exact ⟨hw2.trans hw1, fun rid => (hst2 rid).trans (hst1 rid)⟩
    · intro a'
      rw [ihshape a', hshape1 a']

/-! ### C2: the second run is inert -/

theorem record_step_inert (cfg : DisCfg) (putOk : String → String → Bool)
    (acct : AccountCfg) (zid zname : String) (fs : DisFlowSt) (r : RemoteRecord)
    (hb : blockedRec cfg acct.name zid fs.st r) :
    (disableRecordStep cfg putOk acct zid zname fs r).w = fs.w ∧
    (disableRecordStep cfg putOk acct zid zname fs r).changes = fs.changes ∧
    (disableRecordStep cfg putOk acct zid zname fs r).puts = fs.puts ∧
    (disableRecordStep cfg putOk acct zid zname fs r).total = fs.total ∧
    stExtend fs.st (disableRecordStep cfg putOk acct zid zname fs r).st := by
  by_cases hp : passesFilters cfg r = true
  · by_cases hprox : r.proxied.getD false = true
    · obtain ⟨s, hs, hm⟩ := hb hp hprox
      have hgc : getOrCreateSnap fs.st acct.name zid r.id (snapSeed r) = (s, fs.st) := by
        unfold getOrCreateSnap
        rw [hs]
      have hgate : (r.proxied.getD false &&
          !(getOrCreateSnap fs.st acct.name zid r.id (snapSeed r)).1.modified) = false := by
        rw [hgc, hprox]
        dsimp only
        rw [hm]
        rfl
      rw [step_gate_false_eq cfg putOk acct zid zname fs r hp hgate, hgc]
      exact ⟨rfl, rfl, rfl, rfl, stExtend_refl fs.st⟩
    · rw [Bool.not_eq_true] at hprox
      have hgate : (r.proxied.getD false &&
          !(getOrCreateSnap fs.st acct.name zid r.id (snapSeed r)).1.modified) = false := by
        rw [hprox]
        rfl
      rw [step_gate_false_eq cfg putOk acct zid zname fs r hp hgate]
      exact ⟨rfl, rfl, rfl, rfl, stExtend_getOrCreate fs.st acct.name zid r.id (snapSeed r)⟩
  · rw [Bool.not_eq_true] at hp
    rw [step_skip cfg putOk acct zid zname fs r hp]
    exact ⟨rfl, rfl, rfl, rfl, stExtend_refl fs.st⟩

theorem records_fold_inert (cfg : DisCfg) (putOk : String → String → Bool)
    (acct : AccountCfg) (zid zname : String) :
    ∀ (L : List RemoteRecord) (fs : DisFlowSt),
      (∀ r ∈ L, blockedRec cfg acct.name zid fs.st r) →
      (List.foldl (disableRecordStep cfg putOk acct zid zname) fs L).w = fs.w ∧
      (List.foldl (disableRecordStep cfg putOk acct zid zname) fs L).changes = fs.changes ∧
      (List.foldl (disableRecordStep cfg putOk acct zid zname) fs L).puts = fs.puts ∧
      (List.foldl (disableRecordStep cfg putOk acct zid zname) fs L).total = fs.total ∧
      stExtend fs.st (List.foldl (disableRecordStep cfg putOk acct zid zname) fs L).st := by
  intro L
  induction L with
  | nil =>
    intro fs hb
    exact ⟨rfl, rfl, rfl, rfl, stExtend_refl fs.st⟩
  | cons r L' ih =>
    intro fs hb
    simp only [List.foldl_cons]
    obtain ⟨hw1, hc1, hpu1, ht1, hext1⟩ := record_step_inert cfg putOk acct zid zname fs r
      (hb r (List.mem_cons_self r L'))
    obtain ⟨hw2, hc2, hpu2, ht2, hext2⟩ := ih (disableRecordStep cfg putOk acct zid zname fs r)
      (fun rr hrr => blockedRec_extend cfg acct.name zid rr hext1
        (hb rr (List.mem_cons_of_mem r hrr)))
    exact ⟨hw2.trans hw1, hc2.trans hc1, hpu2.trans hpu1, ht2.trans ht1,
      stExtend_trans hext1 hext2⟩

theorem zone_inert (cfg : DisCfg) (putOk : String → String → Bool) (acct : AccountCfg)
    (zid zname : String) (fs : DisFlowSt)
    (hb : blockedZone cfg fs.st fs.w acct.name zid) :
    (disableZone cfg putOk acct zid zname fs).w = fs.w ∧
    (disableZone cfg putOk acct zid zname fs).changes = fs.changes ∧
    (disableZone cfg putOk acct zid zname fs).puts = fs.puts ∧
    (disableZone cfg putOk acct zid zname fs).total = fs.total ∧
    stExtend fs.st (disableZone cfg putOk acct zid zname fs).st := by
  unfold disableZone
  have hext0 : stExtend fs.st (ensureZone fs.st acct.name zid zname) :=
    stExtend_ensureZone fs.st acct.name zid zname
  obtain ⟨hw, hc, hpu, ht, hext⟩ := records_fold_inert cfg putOk acct zid zname
    (getDnsRecords fs.w acct.name zid)
    { fs with
      st := ensureZone fs.st acct.name zid zname
      cnt := { fs.cnt with zones_processed := fs.cnt.zones_processed + 1 } }
    (fun r hr => blockedRec_extend cfg acct.name zid r hext0 (hb r hr))
  exact ⟨hw, hc, hpu, ht, stExtend_trans hext0 hext⟩

theorem zones_fold_inert (cfg : DisCfg) (putOk : String → String → Bool)
    (acct : AccountCfg) :
    ∀ (ps : List (String × String)) (fs : DisFlowSt),
      (∀ p ∈ ps, blockedZone cfg fs.st fs.w acct.name p.1) →
      (ps.foldl (fun fs2 p => disableZone cfg putOk acct p.1 p.2 fs2) fs).w = fs.w ∧
      (ps.foldl (fun fs2 p => disableZone cfg putOk acct p.1 p.2 fs2) fs).changes = fs.changes ∧
      (ps.foldl (fun fs2 p => disableZone cfg putOk acct p.1 p.2 fs2) fs).puts = fs.puts ∧
      (ps.foldl (fun fs2 p => disableZone cfg putOk acct p.1 p.2 fs2) fs).total = fs.total ∧
      stExtend fs.st (ps.foldl (fun fs2 p => disableZone cfg putOk acct p.1 p.2 fs2) fs).st := by
  intro ps
  induction ps with
  | nil =>
    intro fs hb
    exact ⟨rfl, rfl, rfl, rfl, stExtend_refl fs.st⟩
  | cons p pt ih =>
    intro fs hb
    simp only [List.foldl_cons]
    obtain ⟨hw1, hc1, hpu1, ht1, hext1⟩ := zone_inert cfg putOk acct p.1 p.2 fs
      (hb p (List.mem_cons_self p pt))
    obtain ⟨hw2, hc2, hpu2, ht2, hext2⟩ := ih (disableZone cfg putOk acct p.1 p.2 fs)
      (fun q hq => by
        intro r hr
        rw [hw1] at hr
        exact blockedRec_extend cfg acct.name q.1 r hext1
          (hb q (List.mem_cons_of_mem p hq) r hr))
    exact ⟨hw2.trans hw1, hc2.trans hc1, hpu2.trans hpu1, ht2.trans ht1,
      stExtend_trans hext1 hext2⟩

theorem account_inert (cfg : DisCfg) (putOk : String → String → Bool)
    (rs : DisRunSt) (acct : AccountCfg)
    (hb : skipAccount cfg.selAccounts acct.name = false →
      ∀ p ∈ selShape cfg rs.w acct.name, blockedZone cfg rs.st rs.w acct.name p.1) :
    (disableAccount cfg putOk rs acct).w = rs.w ∧
    (disableAccount cfg putOk rs acct).changes = rs.changes ∧
    (disableAccount cfg putOk rs acct).puts = rs.puts ∧
    (disableAccount cfg putOk rs acct).total = rs.total ∧
    stExtend rs.st (disableAccount cfg putOk rs acct).st := by
  unfold disableAccount
  by_cases hskip : skipAccount cfg.selAccounts acct.name = true
  · rw [if_pos hskip]
    exact ⟨rfl, rfl, rfl, rfl, stExtend_refl rs.st⟩
  · rw [Bool.not_eq_true] at hskip
    rw [if_neg (by rw [hskip]; simp)]
    rw [zones_foldl_shape cfg putOk acct (selectZones cfg.selZones (zonesOf rs.w acct.name))]
    obtain ⟨hw, hc, hpu, ht, hext⟩ := zones_fold_inert cfg putOk acct
      (selShape cfg rs.w acct.name)
      ⟨rs.st, rs.w, rs.changes, rs.total, rs.puts, ⟨0, 0, 0, 0⟩⟩
      (fun p hp => hb hskip p hp)
    exact ⟨hw, hc, hpu, ht, hext⟩

theorem accounts_fold_inert (cfg : DisCfg) (putOk : String → String → Bool) :
    ∀ (as : List AccountCfg) (rs : DisRunSt),
      (∀ acct ∈ as, skipAccount cfg.selAccounts acct.name = false →
        ∀ p ∈ selShape cfg rs.w acct.name, blockedZone cfg rs.st rs.w acct.name p.1) →
      (as.foldl (disableAccount cfg putOk) rs).w = rs.w ∧
      (as.foldl (disableAccount cfg putOk) rs).changes = rs.changes ∧
      (as.foldl (disableAccount cfg putOk) rs).puts = rs.puts ∧
      (as.foldl (disableAccount cfg putOk) rs).total = rs.total ∧
      stExtend rs.st (as.foldl (disableAccount cfg putOk) rs).st := by
  intro as
  induction as with
  | nil =>
    intro rs hb
    exact ⟨rfl, rfl, rfl, rfl, stExtend_refl rs.st⟩
  | cons acct as' ih =>
    intro rs hb
    simp only [List.foldl_cons]
    obtain ⟨hw1, hc1, hpu1, ht1, hext1⟩ := account_inert cfg putOk rs acct
      (hb acct (List.mem_cons_self acct as'))
    obtain ⟨hw2, hc2, hpu2, ht2, hext2⟩ := ih (disableAccount cfg putOk rs acct)
      (fun q hq hskip p hp => by
        rw [hw1] at hp
        intro r hr
        rw [hw1] at hr
        exact blockedRec_extend cfg q.name p.1 r hext1
          (hb q (List.mem_cons_of_mem acct hq) hskip p hp r hr))
    exact ⟨hw2.trans hw1, hc2.trans hc1, hpu2.trans hpu1, ht2.trans ht1,
      stExtend_trans hext1 hext2⟩

theorem wA_zoneIds_nodup : ∀ a, ((zonesOf wA a).map (·.id)).Nodup := by
  intro a
  unfold zonesOf wA
  simp only [alGet]
  by_cases h : "acme" = a
  · rw [if_pos h]
    decide
  · rw [if_neg h]
    decide

theorem wA_recIds_nodup : ∀ a z, ((getDnsRecords wA a z).map (·.id)).Nodup := by
  intro a z
  have h : getDnsRecords wA a z = [recApi, recWww, recMx] ∨ getDnsRecords wA a z = [] := by
    unfold getDnsRecords worldZone zonesOf wA
    simp only [alGet]
    by_cases h : "acme" = a
    · rw [if_pos h]
      simp only [Option.getD_some]
      by_cases hz : (("z1" : String) == z) = true
      · left
        have hf : List.find? (fun (zo : RemoteZone) => zo.id == z)
            [⟨"z1", "example.com", [recApi, recWww, recMx]⟩] =
            some ⟨"z1", "example.com", [recApi, recWww, recMx]⟩ :=
          List.find?_cons_of_pos _ hz
        rw [hf]
      · right
        rw [Bool.not_eq_true] at hz
        have hzz : ((⟨"z1", "example.com", [recApi, recWww, recMx]⟩ : RemoteZone).id == z)
            = false := hz
        have hf : List.find? (fun (zo : RemoteZone) => zo.id == z)
            [⟨"z1", "example.com", [recApi, recWww, recMx]⟩] = none := by
          simp only [List.find?, hzz]
        rw [hf]
    · rw [if_neg h]
      right
      rfl
  rcases h with h | h <;> rw [h] <;> decide

/-- **C2** (idempotent disable): after a live disable run in which every remote
mutation succeeds, an immediately repeated run with the same filters over the
resulting state and world appends zero change records, performs zero remote
`put` calls, reports zero total changes and leaves the remote world untouched:
each eligible record now carries a snapshot with `modified = true`, and the
gate `proxied && not modified` (`src/cloudflare_proxy_manager.py:426`) blocks
it. -/
theorem c2_idempotent_disable (cfg : DisCfg) (putOk : String → String → Bool)
    (accts : List AccountCfg) (w : Remote) (st : ProxyState)
    (hdry : cfg.dryRun = false) (hput : ∀ z r, putOk z r = true)
    (hndA : (accts.map (·.name)).Nodup)
    (hndZ : ∀ a, ((zonesOf w a).map (·.id)).Nodup)
    (hndR : ∀ a z, ((getDnsRecords w a z).map (·.id)).Nodup) :
    (scanAndDisableProxies cfg putOk accts
        (scanAndDisableProxies cfg putOk accts w st).w
        (scanAndDisableProxies cfg putOk accts w st).st).changes = [] ∧
    (scanAndDisableProxies cfg putOk accts
        (scanAndDisableProxies cfg putOk accts w st).w
        (scanAndDisableProxies cfg putOk accts w st).st).puts = 0 ∧
    (scanAndDisableProxies cfg putOk accts
        (scanAndDisableProxies cfg putOk accts w st).w
        (scanAndDisableProxies cfg putOk accts w st).st).total_changes = 0 ∧
    (scanAndDisableProxies cfg putOk accts
        (scanAndDisableProxies cfg putOk accts w st).w
        (scanAndDisableProxies cfg putOk accts w st).st).w =
      (scanAndDisableProxies cfg putOk accts w st).w := by
  obtain ⟨hpost, -, -⟩ := accounts_fold_post cfg putOk hdry hput accts
    ⟨st, w, [], 0, 0, []⟩ hndA hndZ hndR
  obtain ⟨hw, hc, hpu, ht, -⟩ := accounts_fold_inert cfg putOk accts
    ⟨(accts.foldl (disableAccount cfg putOk) ⟨st, w, [], 0, 0, []⟩).st,
      (accts.foldl (disableAccount cfg putOk) ⟨st, w, [], 0, 0, []⟩).w, [], 0, 0, []⟩
    (fun q hq hs p hp => hpost q hq hs p hp)
  exact ⟨hc, hpu, ht, hw⟩

theorem c2_idempotent_disable_witness :
    (scanAndDisableProxies cfgLive okAll [acctA]
        (scanAndDisableProxies cfgLive okAll [acctA] wA []).w
        (scanAndDisableProxies cfgLive okAll [acctA] wA []).st).changes = [] ∧
    (scanAndDisableProxies cfgLive okAll [acctA]
        (scanAndDisableProxies cfgLive okAll [acctA] wA []).w
        (scanAndDisableProxies cfgLive okAll [acctA] wA []).st).puts = 0 ∧
    (scanAndDisableProxies cfgLive okAll [acctA]
        (scanAndDisableProxies cfgLive okAll [acctA] wA []).w
        (scanAndDisableProxies cfgLive okAll [acctA] wA []).st).total_changes = 0 ∧
    (scanAndDisableProxies cfgLive okAll [acctA]
        (scanAndDisableProxies cfgLive okAll [acctA] wA []).w
        (scanAndDisableProxies cfgLive okAll [acctA] wA []).st).w =
      (scanAndDisableProxies cfgLive okAll [acctA] wA []).w :=
  c2_idempotent_disable cfgLive okAll [acctA] wA [] rfl (fun z r => rfl)
    (by decide) wA_zoneIds_nodup wA_recIds_nodup

/-! ### C4: dry-run parity -/

/-- Turn a dry-run change row into its live counterpart: the rows differ only
in the `action` tag. -/
def liveify (c : ChangeRecord) : ChangeRecord :=
  { c with action := "disable_proxy" }

theorem passesFilters_dryIrrel (cfg : DisCfg) (b : Bool) (r : RemoteRecord) :
    passesFilters { cfg with dryRun := b } r = passesFilters cfg r := rfl

theorem dcOf_dryIrrel (cfg : DisCfg) (b : Bool) (acct : AccountCfg)
    (zid zname : String) (r : RemoteRecord) :
    dcOf { cfg with dryRun := b } acct zid zname r = dcOf cfg acct zid zname r := rfl

theorem st2Of_dryIrrel (cfg : DisCfg) (b : Bool) (acct : AccountCfg)
    (zid zname : String) (st1 : ProxyState) (rs : Snapshot) (r : RemoteRecord) :
    st2Of { cfg with dryRun := b } acct zid zname st1 rs r =
      st2Of cfg acct zid zname st1 rs r := rfl

theorem getOrCreateSnap_fst_congr (st st' : ProxyState) (a z rid : String)
    (seed : Snapshot) (h : lookupSnap st a z rid = lookupSnap st' a z rid) :
    (getOrCreateSnap st a z rid seed).1 = (getOrCreateSnap st' a z rid seed).1 := by
  unfold getOrCreateSnap
  rw [h]
  cases lookupSnap st' a z rid <;> rfl

/-- No `modified` flag is flipped on: every snapshot marked `modified` in `st`
was already marked `modified` in `st0`. -/
def modifiedPres (st0 st : ProxyState) : Prop :=
  ∀ a z rid s', lookupSnap st a z rid = some s' → s'.modified = true →
    ∃ s0, lookupSnap st0 a z rid = some s0 ∧ s0.modified = true

theorem modifiedPres_refl (st : ProxyState) : modifiedPres st st :=
  fun _ _ _ s' h hm => ⟨s', h, hm⟩

theorem modifiedPres_trans {st0 st1 st2 : ProxyState} (h1 : modifiedPres st0 st1)
    (h2 : modifiedPres st1 st2) : modifiedPres st0 st2 := by
  intro a z rid s' h hm
  obtain ⟨s1, hs1, hm1⟩ := h2 a z rid s' h hm
  exact h1 a z rid s1 hs1 hm1

theorem lookupSnap_insertSnap_self_or (st : ProxyState) (a z rid : String)
    (v : Snapshot) :
    lookupSnap (insertSnap st a z rid v) a z rid = some v ∨
    lookupSnap (insertSnap st a z rid v) a z rid = none := by
  cases ha : alGet st a with
  | none =>
    right
    unfold insertSnap lookupSnap
    rw [alGet_alModify_self, ha]
    simp
  | some zs =>
    cases hz : alGet zs z with
    | none =>
      right
      unfold insertSnap lookupSnap
      rw [alGet_alModify_self, ha]
      simp only [Option.map_some', Option.some_bind]
      rw [alGet_alModify_self, hz]
      simp
    | some zo =>
      left
      exact lookupSnap_insertSnap_self st a z rid v zs zo ha hz

theorem getOrCreate_snd_lookup (st : ProxyState) (a z rid : String) (seed : Snapshot) :
    lookupSnap (getOrCreateSnap st a z rid seed).2 a z rid = lookupSnap st a z rid ∨
    ((getOrCreateSnap st a z rid seed).2 = insertSnap st a z rid seed ∧
      lookupSnap st a z rid = none) := by
  unfold getOrCreateSnap
  cases hl : lookupSnap st a z rid with
  | some s =>
    left
    dsimp only
    exact hl
  | none =>
    right
    exact ⟨rfl, rfl⟩

theorem modifiedPres_getOrCreate (st : ProxyState) (a z rid : String)
    (seed : Snapshot) (hseed : seed.modified = false) :
    modifiedPres st (getOrCreateSnap st a z rid seed).2 := by
  intro a' z' r' s' h hm
  by_cases hk : a = a' ∧ z = z' ∧ rid = r'
  · obtain ⟨rfl, rfl, rfl⟩ := hk
    rcases getOrCreate_snd_lookup st a z rid seed with hc | ⟨hc, hl⟩
    · rw [hc] at h
      exact ⟨s', h, hm⟩
    · rw [hc] at h
      rcases lookupSnap_insertSnap_self_or st a z rid seed with h2 | h2 <;> rw [h2] at h
      · cases h
        rw [hseed] at hm
        cases hm
      · cases h
  · have hne : a ≠ a' ∨ z ≠ z' ∨ rid ≠ r' := by
      by_contra hc
      push_neg at hc
      exact hk ⟨hc.1, hc.2.1, hc.2.2⟩
    rw [lookupSnap_getOrCreate_ne st a z rid seed a' z' r' hne] at h
    exact ⟨s', h, hm⟩

theorem modifiedPres_st2Of (cfg : DisCfg) (acct : AccountCfg) (zid zname : String)
    (st1 : ProxyState) (rs : Snapshot) (r : RemoteRecord) :
    modifiedPres st1 (st2Of cfg acct zid zname st1 rs r) := by
  intro a' z' r' s' h hm
  unfold st2Of at h
  rcases hd : dcOf cfg acct zid zname r with - | d <;> rw [hd] at h
  · exact ⟨s', h, hm⟩
  · dsimp only at h
    by_cases hc : rs.comment = some d
    · rw [if_pos hc] at h
      exact ⟨s', h, hm⟩
    · rw [if_neg hc] at h
      by_cases hk : acct.name = a' ∧ zid = z' ∧ r.id = r'
      · obtain ⟨rfl, rfl, rfl⟩ := hk
        rw [lookupSnap_modifySnap_self] at h
        cases hl : lookupSnap st1 acct.name zid r.id with
        | none =>
          rw [hl] at h
          simp at h
        | some s0 =>
          rw [hl] at h
          simp only [Option.map_some'] at h
          cases h
          exact ⟨s0, rfl, hm⟩
      · have hne : acct.name ≠ a' ∨ zid ≠ z' ∨ r.id ≠ r' := by
          by_contra hcc
          push_neg at hcc
          exact hk ⟨hcc.1, hcc.2.1, hcc.2.2⟩
        rw [lookupSnap_modifySnap_ne st1 acct.name zid r.id a' z' r' _ hne] at h
        exact ⟨s', h, hm⟩

theorem dry_step_frame (cfg : DisCfg) (putOk : String → String → Bool)
    (acct : AccountCfg) (zid zname : String) (fs : DisFlowSt) (r : RemoteRecord)
    (hd : cfg.dryRun = true) :
    (disableRecordStep cfg putOk acct zid zname fs r).w = fs.w ∧
    (disableRecordStep cfg putOk acct zid zname fs r).puts = fs.puts ∧
    (∀ c ∈ (disableRecordStep cfg putOk acct zid zname fs r).changes,
      c ∈ fs.changes ∨ c.action = "would_disable_proxy") ∧
    modifiedPres fs.st (disableRecordStep cfg putOk acct zid zname fs r).st := by
  by_cases hp : passesFilters cfg r = true
  · by_cases hgate : (r.proxied.getD false &&
        !(getOrCreateSnap fs.st acct.name zid r.id (snapSeed r)).1.modified) = true
    · rw [step_dry_eq cfg putOk acct zid zname fs r hp hgate hd]
      refine ⟨rfl, rfl, ?_, ?_⟩
      · intro c hc
        rcases List.mem_append.mp hc with h | h
        · exact Or.inl h
        · rw [List.mem_singleton] at h
          subst h
          exact Or.inr rfl
      · exact modifiedPres_trans
          (modifiedPres_getOrCreate fs.st acct.name zid r.id (snapSeed r) rfl)
          (modifiedPres_st2Of cfg acct zid zname _ _ r)
    · rw [Bool.not_eq_true] at hgate
      rw [step_gate_false_eq cfg putOk acct zid zname fs r hp hgate]
      exact ⟨rfl, rfl, fun c hc => Or.inl hc,
        modifiedPres_getOrCreate fs.st acct.name zid r.id (snapSeed r) rfl⟩
  · rw [Bool.not_eq_true] at hp
    rw [step_skip cfg putOk acct zid zname fs r hp]
    exact ⟨rfl, rfl, fun c hc => Or.inl hc, modifiedPres_refl fs.st⟩

theorem modifiedPres_ensureZone (st : ProxyState) (a z zn : String) :
    modifiedPres st (ensureZone st a z zn) := by
  intro a' z' r' s' h hm
  rw [lookupSnap_ensureZone] at h
  exact ⟨s', h, hm⟩

theorem dry_zone_frame (cfg : DisCfg) (putOk : String → String → Bool)
    (acct : AccountCfg) (zid zname : String) (fs : DisFlowSt) (hd : cfg.dryRun = true) :
    (disableZone cfg putOk acct zid zname fs).w = fs.w ∧
    (disableZone cfg putOk acct zid zname fs).puts = fs.puts ∧
    (∀ c ∈ (disableZone cfg putOk acct zid zname fs).changes,
      c ∈ fs.changes ∨ c.action = "would_disable_proxy") ∧
    modifiedPres fs.st (disableZone cfg putOk acct zid zname fs).st := by
  unfold disableZone
  refine foldl_inv
    (fun fs2 => fs2.w = fs.w ∧ fs2.puts = fs.puts ∧
      (∀ c ∈ fs2.changes, c ∈ fs.changes ∨ c.action = "would_disable_proxy") ∧
      modifiedPres fs.st fs2.st)
    (disableRecordStep cfg putOk acct zid zname)
    (fun s x hs => ?_)
    (getDnsRecords fs.w acct.name zid)
    { fs with
      st := ensureZone fs.st acct.name zid zname
      cnt := { fs.cnt with zones_processed := fs.cnt.zones_processed + 1 } }
    ⟨rfl, rfl, fun c hc => Or.inl hc, modifiedPres_ensureZone fs.st acct.name zid zname⟩
  obtain ⟨hw, hpu, hch, hmp⟩ := hs
  obtain ⟨hw2, hpu2, hch2, hmp2⟩ := dry_step_frame cfg putOk acct zid zname s x hd
  refine ⟨hw2.trans hw, hpu2.trans hpu, ?_, modifiedPres_trans hmp hmp2⟩
  intro c hc
  rcases hch2 c hc with h | h
  · exact hch c h
  · exact Or.inr h

theorem dry_account_frame (cfg : DisCfg) (putOk : String → String → Bool)
    (rs : DisRunSt) (acct : AccountCfg) (hd : cfg.dryRun = true) :
    (disableAccount cfg putOk rs acct).w = rs.w ∧
    (disableAccount cfg putOk rs acct).puts = rs.puts ∧
    (∀ c ∈ (disableAccount cfg putOk rs acct).changes,
      c ∈ rs.changes ∨ c.action = "would_disable_proxy") ∧
    modifiedPres rs.st (disableAccount cfg putOk rs acct).st := by
  unfold disableAccount
  by_cases hskip : skipAccount cfg.selAccounts acct.name = true
  · rw [if_pos hskip]
    exact ⟨rfl, rfl, fun c hc => Or.inl hc, modifiedPres_refl rs.st⟩
  · rw [Bool.not_eq_true] at hskip
    rw [if_neg (by rw [hskip]; simp)]
    have hfold := foldl_inv
      (fun fs2 => fs2.w = rs.w ∧ fs2.puts = rs.puts ∧
        (∀ c ∈ fs2.changes, c ∈ rs.changes ∨ c.action = "would_disable_proxy") ∧
        modifiedPres rs.st fs2.st)
      (fun (fs2 : DisFlowSt) (z : RemoteZone) => disableZone cfg putOk acct z.id z.name fs2)
      (fun s x hs => by
        dsimp only at hs ⊢
        obtain ⟨hw, hpu, hch, hmp⟩ := hs
        obtain ⟨hw2, hpu2, hch2, hmp2⟩ := dry_zone_frame cfg putOk acct x.id x.name s hd
        refine ⟨hw2.trans hw, hpu2.trans hpu, ?_, modifiedPres_trans hmp hmp2⟩
        intro c hc
        rcases hch2 c hc with h | h
        · exact hch c h
        · exact Or.inr h)
      (selectZones cfg.selZones (zonesOf rs.w acct.name))
      ⟨rs.st, rs.w, rs.changes, rs.total, rs.puts, ⟨0, 0, 0, 0⟩⟩
      ⟨rfl, rfl, fun c hc => Or.inl hc, modifiedPres_refl rs.st⟩
    exact hfold

theorem dry_run_frame (cfg : DisCfg) (putOk : String → String → Bool)
    (hd : cfg.dryRun = true) :
    ∀ (as : List AccountCfg) (rs : DisRunSt),
      (as.foldl (disableAccount cfg putOk) rs).w = rs.w ∧
      (as.foldl (disableAccount cfg putOk) rs).puts = rs.puts ∧
      (∀ c ∈ (as.foldl (disableAccount cfg putOk) rs).changes,
        c ∈ rs.changes ∨ c.action = "would_disable_proxy") ∧
      modifiedPres rs.st (as.foldl (disableAccount cfg putOk) rs).st := by
  intro as
  induction as with
  | nil =>
    intro rs
    exact ⟨rfl, rfl, fun c hc => Or.inl hc, modifiedPres_refl rs.st⟩
  | cons acct as' ih =>
    intro rs
    simp only [List.foldl_cons]
    obtain ⟨hw, hpu, hch, hmp⟩ := ih (disableAccount cfg putOk rs acct)
    obtain ⟨hw1, hpu1, hch1, hmp1⟩ := dry_account_frame cfg putOk rs acct hd
    refine ⟨hw.trans hw1, hpu.trans hpu1, ?_, modifiedPres_trans hmp1 hmp⟩
    intro c hc
    rcases hch c hc with h | h
    · rcases hch1 c h with h2 | h2
      · exact Or.inl h2
      · exact Or.inr h2
    · exact Or.inr h

theorem records_fold_parity (cfg : DisCfg) (putOk : String → String → Bool)
    (acct : AccountCfg) (zid zname : String) (hput : ∀ z r, putOk z r = true) :
    ∀ (L : List RemoteRecord) (fsL fsD : DisFlowSt),
      (L.map (·.id)).Nodup →
      (∀ r ∈ L, worldGetRecord fsL.w acct.name zid r.id = some r) →
      (∀ r ∈ L, lookupSnap fsL.st acct.name zid r.id =
        lookupSnap fsD.st acct.name zid r.id) →
      fsL.changes = fsD.changes.map liveify →
      fsL.total = fsD.total →
      fsL.cnt = fsD.cnt →
      (L.foldl (disableRecordStep { cfg with dryRun := false } putOk acct zid zname)
        fsL).changes =
        ((L.foldl (disableRecordStep { cfg with dryRun := true } putOk acct zid zname)
          fsD).changes).map liveify ∧
      (L.foldl (disableRecordStep { cfg with dryRun := false } putOk acct zid zname)
        fsL).total =
        (L.foldl (disableRecordStep { cfg with dryRun := true } putOk acct zid zname)
          fsD).total ∧
      (L.foldl (disableRecordStep { cfg with dryRun := false } putOk acct zid zname)
        fsL).cnt =
        (L.foldl (disableRecordStep { cfg with dryRun := true } putOk acct zid zname)
          fsD).cnt := by
  intro L
  induction L with
  | nil =>
    intro fsL fsD _ _ _ hch htot hcnt
    exact ⟨hch, htot, hcnt⟩
  | cons r L' ih =>
    intro fsL fsD hnd hmem hagree hch htot hcnt
    simp only [List.map_cons, List.nodup_cons] at hnd
    simp only [List.foldl_cons]
    by_cases hp : passesFilters cfg r = true
    · have hpL : passesFilters { cfg with dryRun := false } r = true := hp
      have hpD : passesFilters { cfg with dryRun := true } r = true := hp
      have hgc : (getOrCreateSnap fsL.st acct.name zid r.id (snapSeed r)).1 =
          (getOrCreateSnap fsD.st acct.name zid r.id (snapSeed r)).1 :=
        getOrCreateSnap_fst_congr fsL.st fsD.st acct.name zid r.id (snapSeed r)
          (hagree r (List.mem_cons_self r L'))
      by_cases hgate : (r.proxied.getD false &&
          !(getOrCreateSnap fsL.st acct.name zid r.id (snapSeed r)).1.modified) = true
      · -- both runs act on the record
        have hgateD : (r.proxied.getD false &&
            !(getOrCreateSnap fsD.st acct.name zid r.id (snapSeed r)).1.modified) = true := by
          rw [← hgc]
          exact hgate
        have hprox : r.proxied.getD false = true := by
          have h2 := hgate
          rw [Bool.and_eq_true] at h2
          exact h2.1
        have hget := hmem r (List.mem_cons_self r L')
        have hup := update_success fsL.w putOk acct.name zid r.id
          (dcOf { cfg with dryRun := false } acct zid zname r) r hget
          (optGetD_true _ hprox) (hput zid r.id)
        have hstepL := step_live_eq { cfg with dryRun := false } putOk acct zid zname fsL r
          hpL hgate rfl (by rw [hup])
        have hstepD := step_dry_eq { cfg with dryRun := true } putOk acct zid zname fsD r
          hpD hgateD rfl
        rw [hstepL, hstepD]
        refine ih _ _ hnd.2 ?_ ?_ ?_ ?_ ?_
        · intro rr hrr
          dsimp only
          have hne : rr.id ≠ r.id := by
            intro he
            exact hnd.1 (by rw [← he]; exact List.mem_map_of_mem (·.id) hrr)
          rw [hup]
          dsimp only
          rw [worldGetRecord_wu_ne fsL.w acct.name zid r.id _ rr.id hne
            (update_f_id fsL.w acct.name zid r.id false _ r hget)]
          exact hmem rr (List.mem_cons_of_mem r hrr)
        · intro rr hrr
          dsimp only
          have hne : acct.name ≠ acct.name ∨ zid ≠ zid ∨ r.id ≠ rr.id := by
            refine Or.inr (Or.inr ?_)
            intro he
            exact hnd.1 (by rw [he]; exact List.mem_map_of_mem (·.id) hrr)
          rw [lookupSnap_modifySnap_ne _ acct.name zid r.id acct.name zid rr.id _ hne,
            lookupSnap_st2Of_ne { cfg with dryRun := false } acct zid zname _ _ r
              acct.name zid rr.id hne,
            lookupSnap_getOrCreate_ne fsL.st acct.name zid r.id (snapSeed r)
              acct.name zid rr.id hne,
            lookupSnap_st2Of_ne { cfg with dryRun := true } acct zid zname _ _ r
              acct.name zid rr.id hne,
            lookupSnap_getOrCreate_ne fsD.st acct.name zid r.id (snapSeed r)
              acct.name zid rr.id hne]
          exact hagree rr (List.mem_cons_of_mem r hrr)
        · dsimp only
          rw [List.map_append, ← hch, hgc]
          rfl
        · dsimp only
          rw [htot]
        · dsimp only
          rw [hcnt]
      · -- blocked by the gate in both runs
        rw [Bool.not_eq_true] at hgate
        have hgateD : (r.proxied.getD false &&
            !(getOrCreateSnap fsD.st acct.name zid r.id (snapSeed r)).1.modified) = false := by
          rw [← hgc]
          exact hgate
        rw [step_gate_false_eq { cfg with dryRun := false } putOk acct zid zname fsL r
          hpL hgate,
          step_gate_false_eq { cfg with dryRun := true } putOk acct zid zname fsD r
          hpD hgateD]
        refine ih _ _ hnd.2 ?_ ?_ ?_ ?_ ?_
        · intro rr hrr
          dsimp only
          exact hmem rr (List.mem_cons_of_mem r hrr)
        · intro rr hrr
          dsimp only
          have hne : acct.name ≠ acct.name ∨ zid ≠ zid ∨ r.id ≠ rr.id := by
            refine Or.inr (Or.inr ?_)
            intro he
            exact hnd.1 (by rw [he]; exact List.mem_map_of_mem (·.id) hrr)
          rw [lookupSnap_getOrCreate_ne fsL.st acct.name zid r.id (snapSeed r)
              acct.name zid rr.id hne,
            lookupSnap_getOrCreate_ne fsD.st acct.name zid r.id (snapSeed r)
              acct.name zid rr.id hne]
          exact hagree rr (List.mem_cons_of_mem r hrr)
        · dsimp only
          exact hch
        · dsimp only
          exact htot
        · dsimp only
          rw [hcnt]
    · rw [Bool.not_eq_true] at hp
      rw [step_skip { cfg with dryRun := false } putOk acct zid zname fsL r hp,
        step_skip { cfg with dryRun := true } putOk acct zid zname fsD r hp]
      exact ih fsL fsD hnd.2 (fun rr hrr => hmem rr (List.mem_cons_of_mem r hrr))
        (fun rr hrr => hagree rr (List.mem_cons_of_mem r hrr)) hch htot hcnt

theorem zone_parity (cfg : DisCfg) (putOk : String → String → Bool)
    (acct : AccountCfg) (zid zname : String) (hput : ∀ z r, putOk z r = true)
    (fsL fsD : DisFlowSt)
    (hrecs : getDnsRecords fsL.w acct.name zid = getDnsRecords fsD.w acct.name zid)
    (hnd : ((getDnsRecords fsL.w acct.name zid).map (·.id)).Nodup)
    (hagree : ∀ rid, lookupSnap fsL.st acct.name zid rid =
      lookupSnap fsD.st acct.name zid rid)
    (hch : fsL.changes = fsD.changes.map liveify)
    (htot : fsL.total = fsD.total) (hcnt : fsL.cnt = fsD.cnt) :
    (disableZone { cfg with dryRun := false } putOk acct zid zname fsL).changes =
      ((disableZone { cfg with dryRun := true } putOk acct zid zname fsD).changes).map
        liveify ∧
    (disableZone { cfg with dryRun := false } putOk acct zid zname fsL).total =
      (disableZone { cfg with dryRun := true } putOk acct zid zname fsD).total ∧
    (disableZone { cfg with dryRun := false } putOk acct zid zname fsL).cnt =
      (disableZone { cfg with dryRun := true } putOk acct zid zname fsD).cnt := by
  unfold disableZone
  rw [← hrecs]
  refine records_fold_parity cfg putOk acct zid zname hput
    (getDnsRecords fsL.w acct.name zid)
    { fsL with
      st := ensureZone fsL.st acct.name zid zname
      cnt := { fsL.cnt with zones_processed := fsL.cnt.zones_processed + 1 } }
    { fsD with
      st := ensureZone fsD.st acct.name zid zname
      cnt := { fsD.cnt with zones_processed := fsD.cnt.zones_processed + 1 } }
    hnd ?_ ?_ ?_ ?_ ?_
  · intro r hr
    dsimp only
    rw [worldGetRecord_eq_find]
    exact find?_of_mem_nodup (getDnsRecords fsL.w acct.name zid) r hr hnd
  · intro r hr
    dsimp only
    rw [lookupSnap_ensureZone, lookupSnap_ensureZone]
    exact hagree r.id
  · dsimp only
    exact hch
  · dsimp only
    exact htot
  · dsimp only
    rw [hcnt]

theorem zones_fold_parity (cfg : DisCfg) (putOk : String → String → Bool)
    (acct : AccountCfg) (hput : ∀ z r, putOk z r = true) :
    ∀ (ps : List (String × String)) (fsL fsD : DisFlowSt),
      (ps.map Prod.fst).Nodup →
      (∀ a z, ((getDnsRecords fsL.w a z).map (·.id)).Nodup) →
      (∀ p ∈ ps, getDnsRecords fsL.w acct.name p.1 =
        getDnsRecords fsD.w acct.name p.1) →
      (∀ p ∈ ps, ∀ rid, lookupSnap fsL.st acct.name p.1 rid =
        lookupSnap fsD.st acct.name p.1 rid) →
      fsL.changes = fsD.changes.map liveify →
      fsL.total = fsD.total →
      fsL.cnt = fsD.cnt →
      (ps.foldl (fun fs2 p => disableZone { cfg with dryRun := false } putOk acct
        p.1 p.2 fs2) fsL).changes =
        ((ps.foldl (fun fs2 p => disableZone { cfg with dryRun := true } putOk acct
          p.1 p.2 fs2) fsD).changes).map liveify ∧
      (ps.foldl (fun fs2 p => disableZone { cfg with dryRun := false } putOk acct
        p.1 p.2 fs2) fsL).total =
        (ps.foldl (fun fs2 p => disableZone { cfg with dryRun := true } putOk acct
          p.1 p.2 fs2) fsD).total ∧
      (ps.foldl (fun fs2 p => disableZone { cfg with dryRun := false } putOk acct
        p.1 p.2 fs2) fsL).cnt =
        (ps.foldl (fun fs2 p => disableZone { cfg with dryRun := true } putOk acct
          p.1 p.2 fs2) fsD).cnt := by
  intro ps
  induction ps with
  | nil =>
    intro fsL fsD _ _ _ _ hch htot hcnt
    exact ⟨hch, htot, hcnt⟩
  | cons p pt ih =>
    intro fsL fsD hnd hndR hrecs hagree hch htot hcnt
    simp only [List.map_cons, List.nodup_cons] at hnd
    simp only [List.foldl_cons]
    obtain ⟨hch1, htot1, hcnt1⟩ := zone_parity cfg putOk acct p.1 p.2 hput fsL fsD
      (hrecs p (List.mem_cons_self p pt)) (hndR acct.name p.1)
      (hagree p (List.mem_cons_self p pt)) hch htot hcnt
    refine ih (disableZone { cfg with dryRun := false } putOk acct p.1 p.2 fsL)
      (disableZone { cfg with dryRun := true } putOk acct p.1 p.2 fsD)
      hnd.2 ?_ ?_ ?_ hch1 htot1 hcnt1
    · intro a z
      rw [disableZone_recIds]
      exact hndR a z
    · intro q hq
      have hne : q.1 ≠ p.1 := by
        intro he
        exact hnd.1 (by rw [← he]; exact List.mem_map_of_mem Prod.fst hq)
      have hlocL := disableZone_locality { cfg with dryRun := false } putOk acct p.1 p.2
        fsL acct.name q.1 (Or.inr (fun he => hne he.symm))
      have hlocD := disableZone_locality { cfg with dryRun := true } putOk acct p.1 p.2
        fsD acct.name q.1 (Or.inr (fun he => hne he.symm))
      rw [hlocL.1, hlocD.1]
      exact hrecs q (List.mem_cons_of_mem p hq)
    · intro q hq rid
      have hne : q.1 ≠ p.1 := by
        intro he
        exact hnd.1 (by rw [← he]; exact List.mem_map_of_mem Prod.fst hq)
      have hlocL := disableZone_locality { cfg with dryRun := false } putOk acct p.1 p.2
        fsL acct.name q.1 (Or.inr (fun he => hne he.symm))
      have hlocD := disableZone_locality { cfg with dryRun := true } putOk acct p.1 p.2
        fsD acct.name q.1 (Or.inr (fun he => hne he.symm))
      rw [hlocL.2 rid, hlocD.2 rid]
      exact hagree q (List.mem_cons_of_mem p hq) rid

theorem account_parity (cfg : DisCfg) (putOk : String → String → Bool)
    (rsL rsD : DisRunSt) (acct : AccountCfg) (hput : ∀ z r, putOk z r = true)
    (hshape : ∀ a', zonesShape rsL.w a' = zonesShape rsD.w a')
    (hndZ : ((zonesOf rsL.w acct.name).map (·.id)).Nodup)
    (hndR : ∀ a z, ((getDnsRecords rsL.w a z).map (·.id)).Nodup)
    (hrecs : ∀ z, getDnsRecords rsL.w acct.name z = getDnsRecords rsD.w acct.name z)
    (hagree : ∀ z rid, lookupSnap rsL.st acct.name z rid =
      lookupSnap rsD.st acct.name z rid)
    (hacc : rsL.accounts = rsD.accounts)
    (hch : rsL.changes = rsD.changes.map liveify)
    (htot : rsL.total = rsD.total) :
    (disableAccount { cfg with dryRun := false } putOk rsL acct).accounts =
      (disableAccount { cfg with dryRun := true } putOk rsD acct).accounts ∧
    (disableAccount { cfg with dryRun := false } putOk rsL acct).changes =
      ((disableAccount { cfg with dryRun := true } putOk rsD acct).changes).map liveify ∧
    (disableAccount { cfg with dryRun := false } putOk rsL acct).total =
      (disableAccount { cfg with dryRun := true } putOk rsD acct).total := by
  unfold disableAccount
  by_cases hskip : skipAccount cfg.selAccounts acct.name = true
  · rw [if_pos hskip, if_pos hskip]
    exact ⟨hacc, hch, htot⟩
  · rw [Bool.not_eq_true] at hskip
    rw [if_neg (by rw [hskip]; simp), if_neg (by rw [hskip]; simp)]
    rw [zones_foldl_shape { cfg with dryRun := false } putOk acct
      (selectZones ({ cfg with dryRun := false } : DisCfg).selZones
        (zonesOf rsL.w acct.name)),
      zones_foldl_shape { cfg with dryRun := true } putOk acct
      (selectZones ({ cfg with dryRun := true } : DisCfg).selZones
        (zonesOf rsD.w acct.name))]
    have hps : ((selectZones ({ cfg with dryRun := true } : DisCfg).selZones
        (zonesOf rsD.w acct.name)).map fun z => (z.id, z.name)) =
        ((selectZones ({ cfg with dryRun := false } : DisCfg).selZones
          (zonesOf rsL.w acct.name)).map fun z => (z.id, z.name)) := by
      show selShape cfg rsD.w acct.name = selShape cfg rsL.w acct.name
      exact (selShape_congr cfg rsD.w rsL.w acct.name (hshape acct.name)).symm
    rw [hps]
    obtain ⟨hch1, htot1, hcnt1⟩ := zones_fold_parity cfg putOk acct hput
      ((selectZones ({ cfg with dryRun := false } : DisCfg).selZones
        (zonesOf rsL.w acct.name)).map fun (z : RemoteZone) => (z.id, z.name))
      ⟨rsL.st, rsL.w, rsL.changes, rsL.total, rsL.puts, ⟨0, 0, 0, 0⟩⟩
      ⟨rsD.st, rsD.w, rsD.changes, rsD.total, rsD.puts, ⟨0, 0, 0, 0⟩⟩
      (selShape_fst_nodup cfg rsL.w acct.name hndZ)
      hndR
      (fun p hp => hrecs p.1)
      (fun p hp rid => hagree p.1 rid)
      hch htot rfl
    unfold closeAccount
    refine ⟨?_, hch1, htot1⟩
    dsimp only
    rw [hacc, hcnt1]

theorem disableAccount_frame (cfg : DisCfg) (putOk : String → String → Bool)
    (rs : DisRunSt) (acct : AccountCfg) :
    (∀ a' z', a' ≠ acct.name →
      getDnsRecords (disableAccount cfg putOk rs acct).w a' z' =
        getDnsRecords rs.w a' z' ∧
      ∀ rid, lookupSnap (disableAccount cfg putOk rs acct).st a' z' rid =
        lookupSnap rs.st a' z' rid) ∧
    (∀ a', zonesShape (disableAccount cfg putOk rs acct).w a' = zonesShape rs.w a') ∧
    (∀ a' z', (getDnsRecords (disableAccount cfg putOk rs acct).w a' z').map (·.id) =
      (getDnsRecords rs.w a' z').map (·.id)) := by
  unfold disableAccount
  by_cases hskip : skipAccount cfg.selAccounts acct.name = true
  · rw [if_pos hskip]
    exact ⟨fun a' z' h => ⟨rfl, fun rid => rfl⟩, fun a' => rfl, fun a' z' => rfl⟩
  · rw [Bool.not_eq_true] at hskip
    rw [if_neg (by rw [hskip]; simp)]
    have hfold := foldl_inv
      (fun fs2 => (∀ a' z', a' ≠ acct.name →
          getDnsRecords fs2.w a' z' = getDnsRecords rs.w a' z' ∧
          ∀ rid, lookupSnap fs2.st a' z' rid = lookupSnap rs.st a' z' rid) ∧
        (∀ a', zonesShape fs2.w a' = zonesShape rs.w a') ∧
        (∀ a' z', (getDnsRecords fs2.w a' z').map (·.id) =
          (getDnsRecords rs.w a' z').map (·.id)))
      (fun (fs2 : DisFlowSt) (z : RemoteZone) => disableZone cfg putOk acct z.id z.name fs2)
      (fun s x hs => by
        dsimp only at hs ⊢
        obtain ⟨hloc, hshape, hrec⟩ := hs
        refine ⟨?_, ?_, ?_⟩
        · intro a' z' h
          obtain ⟨hw1, hst1⟩ := disableZone_locality cfg putOk acct x.id x.name s a' z'
            (Or.inl (fun he => h he.symm))
          obtain ⟨hw0, hst0⟩ := hloc a' z' h
          exact ⟨hw1.trans hw0, fun rid => (hst1 rid).trans (hst0 rid)⟩
        · intro a'
          rw [disableZone_shape, hshape a']
        · intro a' z'
          rw [disableZone_recIds, hrec a' z'])
      (selectZones cfg.selZones (zonesOf rs.w acct.name))
      ⟨rs.st, rs.w, rs.changes, rs.total, rs.puts, ⟨0, 0, 0, 0⟩⟩
      ⟨fun a' z' h => ⟨rfl, fun rid => rfl⟩, fun a' => rfl, fun a' z' => rfl⟩
    exact hfold

theorem accounts_fold_parity (cfg : DisCfg) (putOk : String → String → Bool)
    (hput : ∀ z r, putOk z r = true) :
    ∀ (as : List AccountCfg) (rsL rsD : DisRunSt),
      (as.map (·.name)).Nodup →
      (∀ a, ((zonesOf rsL.w a).map (·.id)).Nodup) →
      (∀ a z, ((getDnsRecords rsL.w a z).map (·.id)).Nodup) →
      (∀ a', zonesShape rsL.w a' = zonesShape rsD.w a') →
      (∀ acct ∈ as, ∀ z, getDnsRecords rsL.w acct.name z =
        getDnsRecords rsD.w acct.name z) →
      (∀ acct ∈ as, ∀ z rid, lookupSnap rsL.st acct.name z rid =
        lookupSnap rsD.st acct.name z rid) →
      rsL.accounts = rsD.accounts →
      rsL.changes = rsD.changes.map liveify →
      rsL.total = rsD.total →
      (as.foldl (disableAccount { cfg with dryRun := false } putOk) rsL).accounts =
        (as.foldl (disableAccount { cfg with dryRun := true } putOk) rsD).accounts ∧
      (as.foldl (disableAccount { cfg with dryRun := false } putOk) rsL).changes =
        ((as.foldl (disableAccount { cfg with dryRun := true } putOk) rsD).changes).map
          liveify ∧
      (as.foldl (disableAccount { cfg with dryRun := false } putOk) rsL).total =
        (as.foldl (disableAccount { cfg with dryRun := true } putOk) rsD).total := by
  intro as
  induction as with
  | nil =>
    intro rsL rsD _ _ _ _ _ _ hacc hch htot
    exact ⟨hacc, hch, htot⟩
  | cons acct as' ih =>
    intro rsL rsD hndA hndZ hndR hshape hrecs hagree hacc hch htot
    simp only [List.map_cons, List.nodup_cons] at hndA
    simp only [List.foldl_cons]
    obtain ⟨hacc1, hch1, htot1⟩ := account_parity cfg putOk rsL rsD acct hput hshape
      (hndZ acct.name) hndR (hrecs acct (List.mem_cons_self acct as'))
      (hagree acct (List.mem_cons_self acct as')) hacc hch htot
    obtain ⟨hlocL, hshapeL, hrecL⟩ := disableAccount_frame
      { cfg with dryRun := false } putOk rsL acct
    obtain ⟨hlocD, hshapeD, hrecD⟩ := disableAccount_frame
      { cfg with dryRun := true } putOk rsD acct
    refine ih (disableAccount { cfg with dryRun := false } putOk rsL acct)
      (disableAccount { cfg with dryRun := true } putOk rsD acct)
      hndA.2 ?_ ?_ ?_ ?_ ?_ hacc1 hch1 htot1
    · intro a
      rw [zoneIds_eq_shape, hshapeL a, ← zoneIds_eq_shape]
      exact hndZ a
    · intro a z
      rw [hrecL a z]
      exact hndR a z
    · intro a'
      rw [hshapeL a', hshapeD a']
      exact hshape a'
    · intro q hq z
      have hne : q.name ≠ acct.name := by
        intro he
        exact hndA.1 (by rw [← he]; exact List.mem_map_of_mem (·.name) hq)
      rw [(hlocL q.name z hne).1, (hlocD q.name z hne).1]
      exact hrecs q (List.mem_cons_of_mem acct hq) z
    · intro q hq z rid
      have hne : q.name ≠ acct.name := by
        intro he
        exact hndA.1 (by rw [← he]; exact List.mem_map_of_mem (·.name) hq)
      rw [(hlocL q.name z hne).2 rid, (hlocD q.name z hne).2 rid]
      exact hagree q (List.mem_cons_of_mem acct hq) z rid

/-- **C4** (dry-run parity): under identical inputs on a remote where every
mutation succeeds, the dry-run and live disable invocations produce equal
per-account counters and equal total change counts, and change-record
sequences equal field for field except for the action tag
(`would_disable_proxy` vs `disable_proxy`); moreover the dry run issues no
remote call, leaves the remote world untouched, and flips no snapshot's
`modified` flag. -/
theorem c4_dry_run_parity (cfg : DisCfg) (putOk : String → String → Bool)
    (accts : List AccountCfg) (w : Remote) (st : ProxyState)
    (hput : ∀ z r, putOk z r = true)
    (hndA : (accts.map (·.name)).Nodup)
    (hndZ : ∀ a, ((zonesOf w a).map (·.id)).Nodup)
    (hndR : ∀ a z, ((getDnsRecords w a z).map (·.id)).Nodup) :
    (scanAndDisableProxies { cfg with dryRun := false } putOk accts w st).accounts =
      (scanAndDisableProxies { cfg with dryRun := true } putOk accts w st).accounts ∧
    (scanAndDisableProxies { cfg with dryRun := false } putOk accts w st).total_changes =
      (scanAndDisableProxies { cfg with dryRun := true } putOk accts w st).total_changes ∧
    (scanAndDisableProxies { cfg with dryRun := false } putOk accts w st).changes =
      ((scanAndDisableProxies { cfg with dryRun := true } putOk accts w st).changes).map
        liveify ∧
    (∀ c ∈ (scanAndDisableProxies { cfg with dryRun := true } putOk accts w st).changes,
      c.action = "would_disable_proxy") ∧
    (scanAndDisableProxies { cfg with dryRun := true } putOk accts w st).puts = 0 ∧
    (scanAndDisableProxies { cfg with dryRun := true } putOk accts w st).w = w ∧
    modifiedPres st
      (scanAndDisableProxies { cfg with dryRun := true } putOk accts w st).st := by
  obtain ⟨hacc, hch, htot⟩ := accounts_fold_parity cfg putOk hput accts
    ⟨st, w, [], 0, 0, []⟩ ⟨st, w, [], 0, 0, []⟩ hndA hndZ hndR
    (fun a' => rfl) (fun acct h z => rfl) (fun acct h z rid => rfl) rfl rfl rfl
  obtain ⟨hw, hpu, hchD, hmp⟩ := dry_run_frame { cfg with dryRun := true } putOk rfl
    accts ⟨st, w, [], 0, 0, []⟩
  refine ⟨hacc, htot, hch, ?_, hpu, hw, hmp⟩
  intro c hc
  rcases hchD c hc with h | h
  · cases h
  · exact h

theorem c4_dry_run_parity_witness :
    (scanAndDisableProxies { cfgLive with dryRun := false } okAll [acctA] wA []).accounts =
      (scanAndDisableProxies { cfgLive with dryRun := true } okAll [acctA] wA []).accounts ∧
    (scanAndDisableProxies { cfgLive with dryRun := false } okAll [acctA]
        wA []).total_changes =
      (scanAndDisableProxies { cfgLive with dryRun := true } okAll [acctA]
        wA []).total_changes ∧
    (scanAndDisableProxies { cfgLive with dryRun := false } okAll [acctA] wA []).changes =
      ((scanAndDisableProxies { cfgLive with dryRun := true } okAll [acctA]
        wA []).changes).map liveify ∧
    (∀ c ∈ (scanAndDisableProxies { cfgLive with dryRun := true } okAll [acctA]
        wA []).changes,
      c.action = "would_disable_proxy") ∧
    (scanAndDisableProxies { cfgLive with dryRun := true } okAll [acctA] wA []).puts = 0 ∧
    (scanAndDisableProxies { cfgLive with dryRun := true } okAll [acctA] wA []).w = wA ∧
    modifiedPres []
      (scanAndDisableProxies { cfgLive with dryRun := true } okAll [acctA] wA []).st :=
  c4_dry_run_parity cfgLive okAll [acctA] wA [] (fun z r => rfl) (by decide)
    wA_zoneIds_nodup wA_recIds_nodup
